import Mathlib

/-!
Verification of the wide-area business-search subsystem of this repository.

The development shallowly embeds the Supabase edge function
`supabase/functions/search-businesses/index.ts` (the current variant) and,
where a claim concerns it, the older variant of the same function kept at
`src/unnamed/part_000` (its definitions carry a `V0` suffix).

Upstream network endpoints (Places text search, geocoding, place details)
are modelled as oracles: total functions from request coordinates (page
index, attempt index, address string, place id) to the response the
endpoint would produce.  A `fetch` that rejects is modelled by a dedicated
`threw` constructor where the code distinguishes it.  JS numbers appearing
in the geometry are embedded as exact rationals; counters are naturals.
Thrown JS exceptions are `Except.error`.
-/

deriving instance DecidableEq for Except

/-- A latitude/longitude pair (JS object `{lat, lng}`). -/
structure GeoLoc where
  lat : ℚ
  lng : ℚ
deriving DecidableEq

/-- `PlaceResult` of index.ts (fields used by the function; `photos` is
never read and is omitted). -/
structure PlaceResult where
  place_id : String
  name : String
  formatted_address : String
  formatted_phone_number : Option String
  rating : Option ℚ
  user_ratings_total : Option ℕ
  business_status : Option String
  website : Option String
  price_level : Option ℕ
  location : GeoLoc
deriving DecidableEq

/-- One Places text-search response page: its `status`, its `results`
array, and whether a `next_page_token` is present. -/
structure SearchResp where
  status : String
  results : List PlaceResult
  hasNext : Bool
deriving DecidableEq

/-- `performStandardSearch` of index.ts, lines 56-98, as a recursion over
the page oracle.  `fuel` bounds the iteration count; the loop adds at
least one result per iteration and continues only while the accumulator
is shorter than `maxResults`, so `maxResults + 1` fuel is never
exhausted.  Returns the collected results together with the final
`pageCount`. -/
def stdGo (pages : ℕ → SearchResp) (maxResults : ℕ) :
    ℕ → ℕ → List PlaceResult → Except String (List PlaceResult × ℕ)
  | 0, pageCount, acc => .ok (acc, pageCount)
  | fuel+1, pageCount, acc =>
    let r := pages pageCount
    if r.status ≠ "OK" ∧ r.status ≠ "ZERO_RESULTS" then
      if pageCount = 0 then .error ("Google Places API error: " ++ r.status)
      else .ok (acc, pageCount)
    else if r.status = "ZERO_RESULTS" ∨ r.results = [] then .ok (acc, pageCount)
    else
      let acc2 := acc ++ r.results
      if maxResults ≤ acc2.length then .ok (acc2.take maxResults, pageCount + 1)
      else if r.hasNext then stdGo pages maxResults fuel (pageCount + 1) acc2
      else .ok (acc2, pageCount + 1)

/-- `performStandardSearch(query, key, initialApiCalls, maxResults)` of
index.ts: result list only. -/
def performStandardSearch (pages : ℕ → SearchResp) (maxResults : ℕ) :
    Except String (List PlaceResult) :=
  (stdGo pages maxResults (maxResults + 1) 0 []).map (fun p => p.1)

/-- `performStandardSearch` of the older variant `src/unnamed/part_000`,
lines 56-92: no `maxResults` parameter, loop condition
`nextPageToken && pageCount < maxPages` with `maxPages = 3`, and no
truncation of the collected results.  Fuel 3 matches the page bound. -/
def stdGoV0 (pages : ℕ → SearchResp) :
    ℕ → ℕ → List PlaceResult → Except String (List PlaceResult × ℕ)
  | 0, pageCount, acc => .ok (acc, pageCount)
  | fuel+1, pageCount, acc =>
    let r := pages pageCount
    if r.status ≠ "OK" ∧ r.status ≠ "ZERO_RESULTS" then
      if pageCount = 0 then .error ("Google Places API error: " ++ r.status)
      else .ok (acc, pageCount)
    else if r.status = "ZERO_RESULTS" ∨ r.results = [] then .ok (acc, pageCount)
    else
      let acc2 := acc ++ r.results
      if r.hasNext ∧ pageCount + 1 < 3 then stdGoV0 pages fuel (pageCount + 1) acc2
      else .ok (acc2, pageCount + 1)

/-- The V0 standard search entry point. -/
def performStandardSearchV0 (pages : ℕ → SearchResp) :
    Except String (List PlaceResult × ℕ) :=
  stdGoV0 pages 3 0 []

/-- A sample place with the given id, used for concrete evaluations. -/
def samplePlace (id : String) : PlaceResult :=
  ⟨id, id, "addr", none, none, none, none, none, none, ⟨0, 0⟩⟩

/-- A geocoding result (index.ts `GeocodeResult`): a location and an
optional bounding box. -/
structure GeoBounds where
  southwest : GeoLoc
  northeast : GeoLoc
deriving DecidableEq

/-- One entry of a geocode response `results` array. -/
structure GeoResult where
  location : GeoLoc
  bounds : Option GeoBounds
deriving DecidableEq

/-- A geocode endpoint response body. -/
structure GeoResp where
  status : String
  results : List GeoResult
deriving DecidableEq

/-- Outcome of one geocode `fetch`: a parsed response, or a rejected
promise (network error) with its message. -/
inductive GeoOutcome where
  | resp (r : GeoResp)
  | threw (msg : String)

/-- index.ts lines 157-160: the ordered geocoding phrasings tried. -/
def geocodingAttempts (baseLocation : String) : List String :=
  [baseLocation, baseLocation ++ ", India"]

/-- index.ts lines 164-180: try the attempts in order; stop at the first
response with status `OK` and a non-empty `results` array.  Each
completed fetch increments the call counter (`apiCalls++` runs after the
`await`, so a throwing fetch is not counted).  A thrown fetch escapes the
loop to the surrounding catch; we return it as `Except.error`.  The
second component is the number of geocode calls counted. -/
def tryGeocode (geo : String → GeoOutcome) :
    List String → Except String (Option GeoResult) × ℕ
  | [] => (.ok none, 0)
  | a :: rest =>
    match geo a with
    | .threw m => (.error m, 0)
    | .resp r =>
      if r.status = "OK" ∧ r.results ≠ [] then (.ok r.results.head?, 1)
      else
        let p := tryGeocode geo rest
        (p.1, p.2 + 1)

/-- The property names a plain object literal inherits from
`Object.prototype` (V8, as Deno runs): looking any of these up on the
`gridSizes` literal yields a truthy inherited function — or, for
`__proto__`, an object — rather than `undefined`. -/
def objectPrototypeMembers : List String :=
  ["constructor", "hasOwnProperty", "isPrototypeOf", "propertyIsEnumerable",
   "toLocaleString", "toString", "valueOf", "__proto__", "__defineGetter__",
   "__defineSetter__", "__lookupGetter__", "__lookupSetter__"]

/-- The value of the JS lookup `gridSizes[searchIntensity]` (index.ts
lines 107-112): an own numeric property, a truthy non-numeric member
inherited from `Object.prototype`, or `undefined`. -/
inductive GridSizeLookup where
  | num (n : ℕ)
  | protoMember
  | undefinedVal
deriving DecidableEq

/-- index.ts lines 107-112: the object-literal lookup, prototype chain
included. -/
def gridSizes (searchIntensity : String) : GridSizeLookup :=
  if searchIntensity = "low" then .num 2
  else if searchIntensity = "medium" then .num 3
  else if searchIntensity = "high" then .num 4
  else if searchIntensity ∈ objectPrototypeMembers then .protoMember
  else .undefinedVal

/-- A JS grid size: a number, or the non-numeric value left in
`gridSize` when the lookup returned an inherited member. -/
inductive JsGridSize where
  | num (n : ℕ)
  | nonNum
deriving DecidableEq

/-- index.ts line 112, `gridSizes[...] || 2`: the numeric sizes 2, 3, 4
are truthy and pass through; an inherited member is truthy too, so the
default is skipped and `gridSize` is not a number; `undefined` falls
back to 2. -/
def baseGridSize (searchIntensity : String) : JsGridSize :=
  match gridSizes searchIntensity with
  | .num n => .num n
  | .protoMember => .nonNum
  | .undefinedVal => .num 2

/-- A grid tile, index.ts line 231. -/
structure Tile where
  swLat : ℚ
  swLng : ℚ
  neLat : ℚ
  neLng : ℚ
  tileIndex : String
deriving DecidableEq

/-- The cell dimension `span / gridSize` (index.ts lines 222-223). -/
def cellDim (lo hi : ℚ) (gridSize : ℕ) : ℚ := (hi - lo) / gridSize

/-- The tile built for grid position `(i, j)` (index.ts lines 235-245). -/
def mkTile (southwest northeast : GeoLoc) (gridSize i j : ℕ) : Tile :=
  let cellLat := cellDim southwest.lat northeast.lat gridSize
  let cellLng := cellDim southwest.lng northeast.lng gridSize
  let swLat := southwest.lat + i * cellLat
  let swLng := southwest.lng + j * cellLng
  ⟨swLat, swLng, swLat + cellLat, swLng + cellLng,
    toString i ++ "-" ++ toString j⟩

/-- index.ts lines 230-247: the tile array, outer loop on `i` (lat), inner
loop on `j` (lng). -/
def makeTiles (southwest northeast : GeoLoc) (gridSize : ℕ) : List Tile :=
  (List.range gridSize).flatMap fun i =>
    (List.range gridSize).map fun j => mkTile southwest northeast gridSize i j

/-- Membership of a point in the closed rectangle of a tile. -/
def inTile (t : Tile) (x y : ℚ) : Prop :=
  t.swLat ≤ x ∧ x ≤ t.neLat ∧ t.swLng ≤ y ∧ y ≤ t.neLng

/-- Membership of a point in the open interior of a tile. -/
def inTileInterior (t : Tile) (x y : ℚ) : Prop :=
  t.swLat < x ∧ x < t.neLat ∧ t.swLng < y ∧ y < t.neLng

/-- Membership of a point in the closed bounding box. -/
def inBox (southwest northeast : GeoLoc) (x y : ℚ) : Prop :=
  southwest.lat ≤ x ∧ x ≤ northeast.lat ∧ southwest.lng ≤ y ∧ y ≤ northeast.lng

/-- Outcome of one Places text-search `fetch` inside a tile: a parsed
response, or a rejected promise with its message. -/
inductive FetchOutcome where
  | resp (r : SearchResp)
  | threw (msg : String)

/-- `fetchWithRetry` of index.ts, lines 358-377: the `for` loop over
`attempt`, instrumented with the list of backoff delays (ms) waited and
the number of attempts consumed.  The first fuel argument counts the
remaining loop iterations (`retries - attempt`), so fuel 0 is the loop
falling through (only reachable when `retries = 0`, which the code never
does; JS would return `undefined` there). -/
def fetchWithRetryGo (att : ℕ → FetchOutcome) (retries : ℕ) :
    ℕ → ℕ → List ℕ → Except String (SearchResp × List ℕ × ℕ)
  | 0, attempt, delays => .ok (⟨"", [], false⟩, delays, attempt)
  | fuel+1, attempt, delays =>
    match att attempt with
    | .resp r =>
      if r.status = "INVALID_REQUEST" ∧ attempt < retries - 1 then
        fetchWithRetryGo att retries fuel (attempt + 1) (delays ++ [2 ^ attempt * 1000])
      else .ok (r, delays, attempt + 1)
    | .threw msg =>
      if attempt = retries - 1 then .error msg
      else fetchWithRetryGo att retries fuel (attempt + 1) (delays ++ [1000])

/-- `fetchWithRetry(url, retries)` with its default `retries = 3` caller
shape: start at attempt 0 with no delays waited. -/
def fetchWithRetry (att : ℕ → FetchOutcome) (retries : ℕ) :
    Except String (SearchResp × List ℕ × ℕ) :=
  fetchWithRetryGo att retries retries 0 []

/-- The mutable locals of `performGridTileTextSearch` (index.ts lines
350-353). -/
structure TileState where
  results : List PlaceResult
  apiCalls : ℕ
  rawResultsCount : ℕ
  uniqueNewCount : ℕ
deriving DecidableEq

/-- Initial tile state. -/
def initTileState : TileState := ⟨[], 0, 0, 0⟩

/-- The page loop of `performGridTileTextSearch` (index.ts lines
379-420): fetch each page through `fetchWithRetry`; on `OK` with results
append them, count raw and potentially-new ids against the snapshot
`existing` set, and follow the token while `pageCount < 3`; on
`ZERO_RESULTS` or any other status stop paginating; a thrown fetch is
swallowed by the surrounding try/catch, keeping the accumulated state.
`att page attempt` is the response oracle. -/
def tileGo (att : ℕ → ℕ → FetchOutcome) (existing : List String) :
    ℕ → ℕ → TileState → TileState
  | 0, _, st => st
  | fuel+1, pageCount, st =>
    match fetchWithRetry (att pageCount) 3 with
    | .error _ => st
    | .ok (r, _, _) =>
      let st1 : TileState := ⟨st.results, st.apiCalls + 1, st.rawResultsCount,
        st.uniqueNewCount⟩
      if r.status = "OK" ∧ r.results ≠ [] then
        let st2 : TileState :=
          ⟨st1.results ++ r.results, st1.apiCalls,
           st1.rawResultsCount + r.results.length,
           st1.uniqueNewCount +
             (r.results.filter fun p => !decide (p.place_id ∈ existing)).length⟩
        if r.hasNext ∧ pageCount + 1 < 3 then
          tileGo att existing fuel (pageCount + 1) st2
        else st2
      else st1

/-- One whole tile search (`MAX_PAGES_PER_TILE = 3`). -/
def performGridTileTextSearch (att : ℕ → ℕ → FetchOutcome)
    (existing : List String) : TileState :=
  tileGo att existing 3 0 initTileState

/-- The per-tile diagnostic record (index.ts lines 422-430; note the
source sets `pages` to `apiCalls`). -/
structure TileInfo where
  tileIndex : String
  sw : GeoLoc
  ne : GeoLoc
  pages : ℕ
  rawResults : ℕ
  uniqueNew : ℕ
  apiCalls : ℕ
deriving DecidableEq

/-- Build the diagnostic record of a tile from its final state. -/
def mkTileInfo (t : Tile) (st : TileState) : TileInfo :=
  ⟨t.tileIndex, ⟨t.swLat, t.swLng⟩, ⟨t.neLat, t.neLng⟩, st.apiCalls,
   st.rawResultsCount, st.uniqueNewCount, st.apiCalls⟩

/-- One step of the coordinator's merge (index.ts lines 280-285): skip a
place whose id was already seen, otherwise record the id and append the
place.  The state is `(uniquePlaceIds, allResults)`. -/
def addPlace (s : List String × List PlaceResult) (p : PlaceResult) :
    List String × List PlaceResult :=
  if p.place_id ∈ s.1 then s else (s.1 ++ [p.place_id], s.2 ++ [p])

/-- Merge one tile's result list into the coordinator state. -/
def mergeTilePlaces (s : List String × List PlaceResult)
    (places : List PlaceResult) : List String × List PlaceResult :=
  places.foldl addPlace s

/-- The coordinator's merge over a sequence of tile result lists in grid
order, starting from the empty seen-set. -/
def mergeTiles (tls : List (List PlaceResult)) : List PlaceResult :=
  (tls.foldl mergeTilePlaces ([], [])).2

/-- Recursive form of the merge used in proofs: `dedupGo seen acc l`
walks `l`, keeping the first occurrence of each id not in `seen`. -/
def dedupGo : List String → List PlaceResult → List PlaceResult →
    List String × List PlaceResult
  | seen, acc, [] => (seen, acc)
  | seen, acc, p :: ps =>
    if p.place_id ∈ seen then dedupGo seen acc ps
    else dedupGo (seen ++ [p.place_id]) (acc ++ [p]) ps

/-- The mutable locals of the grid batch loop (index.ts lines 102-104,
252-254). -/
structure GridState where
  allResults : List PlaceResult
  seen : List String
  apiCalls : ℕ
  rawResultsCount : ℕ
  tileLogs : List TileInfo
deriving DecidableEq

/-- index.ts lines 274-286: account one finished tile (calls, raw count,
log entry) and merge its results. -/
def processTileOutcome (s : GridState) (t : Tile) (out : TileState) :
    GridState :=
  let merged := mergeTilePlaces (s.seen, s.allResults) out.results
  ⟨merged.2, merged.1, s.apiCalls + out.apiCalls,
   s.rawResultsCount + out.rawResultsCount, s.tileLogs ++ [mkTileInfo t out]⟩

/-- Fold `processTileOutcome` over a finished batch in batch order
(`Promise.all` preserves the order of the mapped array). -/
def processBatchResults (st : GridState) (outs : List (Tile × TileState)) :
    GridState :=
  outs.foldl (fun s ts => processTileOutcome s ts.1 ts.2) st

/-- The batch loop of `performGridSearch` (index.ts lines 256-300):
process `tiles.slice(batchStart, batchStart + 4)` — every tile of the
batch reads the seen-set snapshot taken at batch start — then merge, and
stop issuing batches once `allResults.length >= maxResults`.  Fuel
`tiles.length + 1` strictly exceeds the number of batches.  `att` gives
the response oracle of the tile with a given global index. -/
def gridLoopGo (att : ℕ → ℕ → ℕ → FetchOutcome) (tiles : List Tile)
    (maxResults : ℕ) : ℕ → ℕ → GridState → GridState
  | 0, _, st => st
  | fuel+1, batchStart, st =>
    if batchStart < tiles.length then
      let batch := (tiles.drop batchStart).take 4
      let outs := batch.enum.map fun kt =>
        (kt.2, performGridTileTextSearch (att (batchStart + kt.1)) st.seen)
      let st2 := processBatchResults st outs
      if maxResults ≤ st2.allResults.length then st2
      else gridLoopGo att tiles maxResults fuel (batchStart + 4) st2
    else st

/-- Run the batch loop from the start.  `geoCalls` is the value of the
shared `apiCalls` counter after the geocoding phase. -/
def runGridLoop (att : ℕ → ℕ → ℕ → FetchOutcome) (tiles : List Tile)
    (maxResults geoCalls : ℕ) : GridState :=
  gridLoopGo att tiles maxResults (tiles.length + 1) 0 ⟨[], [], geoCalls, 0, []⟩

/-- The `meta` object returned by `performGridSearch`.  The two fallback
shapes (index.ts lines 189 and 336) omit `tilesProcessed` and `apiCalls`
and the success shape (lines 303-317) omits `error`; omitted fields are
`none`.  The source additionally reformats `tileLogs` coordinates with
`toFixed(4)` for display; the underlying records are kept here. -/
structure GridMeta where
  tilesCreated : ℕ
  tilesProcessed : Option ℕ
  apiCallsField : Option ℕ
  rawResults : ℕ
  uniqueResults : ℕ
  tileLogs : List TileInfo
  error : Option String
deriving DecidableEq

/-- The fallback meta of index.ts line 189 (geocoding failed on every
phrasing): note there is no `error` field. -/
def noTilesMeta (l : List PlaceResult) : GridMeta :=
  ⟨0, none, none, l.length, l.length, [], none⟩

/-- The catch-path meta of index.ts line 336: `error: String(error)`. -/
def catchMeta (l : List PlaceResult) (e : String) : GridMeta :=
  ⟨0, none, none, l.length, l.length, [], some e⟩

/-- Return value of `performGridSearch`, instrumented with the number of
geocoding calls made. -/
structure GridReturn where
  results : List PlaceResult
  apiCalls : ℕ
  meta : GridMeta
  geoCallsMade : ℕ
deriving DecidableEq

/-- The upstream oracles `performGridSearch` consumes: the geocode
endpoint by address, the standard-search pages for the original query,
and the per-tile text-search fetches (tile index, page, attempt). -/
structure GridEnv where
  geo : String → GeoOutcome
  pages : ℕ → SearchResp
  tileAtt : ℕ → ℕ → ℕ → FetchOutcome

/-- `Math.ceil(n / 20)` on naturals. -/
def ceilDiv20 (n : ℕ) : ℕ := (n + 19) / 20

/-- index.ts lines 205-209: the synthesized ±0.25° bounding box. -/
def synthBounds (loc : GeoLoc) : GeoLoc × GeoLoc :=
  (⟨loc.lat - 1/4, loc.lng - 1/4⟩, ⟨loc.lat + 1/4, loc.lng + 1/4⟩)

/-- `Math.max` on two rationals. -/
def mathMax (a b : ℚ) : ℚ := if a < b then b else a

/-- index.ts lines 196-210: the box actually used — the geocoded bounds
when present, else the synthesized ±0.25° box. -/
def boundsOf (gr : GeoResult) : GeoLoc × GeoLoc :=
  match gr.bounds with
  | some b => (b.southwest, b.northeast)
  | none => synthBounds gr.location

/-- index.ts lines 217-220: bump the grid size for boxes spanning more
than 0.5°, capping at 6. -/
def scaledGridSize (base : ℕ) (maxSpan : ℚ) : ℕ :=
  if 1/2 < maxSpan then min (base + 1) 6 else base

/-- index.ts lines 217-220 on a JS grid size: a numeric size scales as
above; a non-numeric one stays non-numeric (`gridSize + 1` concatenates
to a string there, and `Math.min` of it is `NaN`). -/
def scaledGridSizeJs (base : JsGridSize) (maxSpan : ℚ) : JsGridSize :=
  match base with
  | .num n => .num (scaledGridSize n maxSpan)
  | .nonNum => .nonNum

/-- index.ts lines 230-247 on a JS grid size: with a non-numeric
`gridSize` the loop guard `i < gridSize` is a `NaN` comparison, hence
false, so no tile is created. -/
def makeTilesJs (southwest northeast : GeoLoc) (g : JsGridSize) :
    List Tile :=
  match g with
  | .num n => makeTiles southwest northeast n
  | .nonNum => []

/-- `performGridSearch` of index.ts, lines 101-339, from the geocoding
step on (the query-parsing heuristics that produce `baseLocation` and
the search term do not affect any verified claim; the search term is
absorbed into the tile oracle).  A geocode fetch that throws reaches the
catch at line 330 (standard-search fallback with `error` set); all
phrasings failing by status reaches the in-try fallback at lines 183-191
(standard-search fallback with no `error` field); a standard-search
throw inside either fallback escapes `performGridSearch` (the catch
would rerun the same search with the same outcome). -/
def performGridSearch (env : GridEnv) (baseLocation : String)
    (maxResults : ℕ) (searchIntensity : String) : Except String GridReturn :=
  let gridSize0 := baseGridSize searchIntensity
  let g := tryGeocode env.geo (geocodingAttempts baseLocation)
  match g.1 with
  | .error m =>
    match performStandardSearch env.pages maxResults with
    | .ok l => .ok ⟨l, g.2 + ceilDiv20 l.length, catchMeta l m, g.2⟩
    | .error e => .error e
  | .ok none =>
    match performStandardSearch env.pages maxResults with
    | .ok l => .ok ⟨l, g.2 + ceilDiv20 l.length, noTilesMeta l, g.2⟩
    | .error e => .error e
  | .ok (some gr) =>
    let bounds := boundsOf gr
    let southwest := bounds.1
    let northeast := bounds.2
    let latSpan := northeast.lat - southwest.lat
    let lngSpan := northeast.lng - southwest.lng
    let gridSize := scaledGridSizeJs gridSize0 (mathMax latSpan lngSpan)
    let tiles := makeTilesJs southwest northeast gridSize
    let st := runGridLoop env.tileAtt tiles maxResults g.2
    .ok ⟨st.allResults.take maxResults, st.apiCalls,
      ⟨tiles.length, some st.tileLogs.length, some st.apiCalls,
       st.rawResultsCount, st.allResults.length, st.tileLogs, none⟩, g.2⟩

/-- A review inside a place-details response. -/
structure ReviewIn where
  author_name : String
  rating : ℚ
  text : String
  time : ℕ
  relative_time_description : String
deriving DecidableEq

/-- The `result` object of a place-details response (fields index.ts
reads). -/
structure DetailsData where
  name : Option String
  formatted_address : Option String
  formatted_phone_number : Option String
  rating : Option ℚ
  user_ratings_total : Option ℕ
  business_status : Option String
  website : Option String
  price_level : Option ℕ
  reviews : List ReviewIn
deriving DecidableEq

/-- Outcome of one place-details fetch: an `OK` response with a
`result`, a non-OK response (or one without a `result`), or a rejected
promise. -/
inductive DetailOutcome where
  | ok (d : DetailsData)
  | notOk
  | threw

/-- A review as shaped for the output record (index.ts lines 529-534). -/
structure ReviewOut where
  author : String
  rating : ℚ
  text : String
  time : String
deriving DecidableEq

/-- One record of the `results` array of the response (index.ts lines
519-535 and the two fallback shapes at 538-549 and 554-563). -/
structure OutputRecord where
  id : String
  name : String
  address : String
  phone : Option String
  rating : ℚ
  totalReviews : ℕ
  status : Option String
  website : Option String
  priceLevel : Option ℕ
  reviews : List ReviewOut
deriving DecidableEq

/-- JS `a || b` for an optional string: an absent or empty string falls
back. -/
def jsOrStr (o : Option String) (dflt : String) : String :=
  match o with
  | some s => if s = "" then dflt else s
  | none => dflt

/-- JS `a || 0` for an optional number (an absent value, like 0 itself,
yields 0). -/
def jsOrZeroQ (o : Option ℚ) : ℚ := o.getD 0

/-- JS `a || 0` for an optional natural. -/
def jsOrZeroNat (o : Option ℕ) : ℕ := o.getD 0

/-- The per-place detail mapper of the `serve` handler (index.ts lines
509-565): on `OK` merge detail fields over the summary and keep at most
10 reviews; on a non-OK response fall back to the summary with
`reviews: []`; on a thrown fetch fall back likewise, but the source's
catch-branch object literal (lines 554-563) has no `website` and no
`priceLevel` keys. -/
def enrichPlace (detail : DetailOutcome) (place : PlaceResult) :
    OutputRecord :=
  match detail with
  | .ok d =>
    ⟨place.place_id, jsOrStr d.name place.name,
     jsOrStr d.formatted_address place.formatted_address,
     d.formatted_phone_number, jsOrZeroQ d.rating,
     jsOrZeroNat d.user_ratings_total, d.business_status, d.website,
     d.price_level,
     (d.reviews.take 10).map fun r =>
       ⟨r.author_name, r.rating, r.text, r.relative_time_description⟩⟩
  | .notOk =>
    ⟨place.place_id, place.name, place.formatted_address,
     place.formatted_phone_number, jsOrZeroQ place.rating,
     jsOrZeroNat place.user_ratings_total, place.business_status,
     place.website, place.price_level, []⟩
  | .threw =>
    ⟨place.place_id, place.name, place.formatted_address,
     place.formatted_phone_number, jsOrZeroQ place.rating,
     jsOrZeroNat place.user_ratings_total, place.business_status,
     none, none, []⟩

/-- The oracles of the whole `serve` handler: the grid oracles plus the
place-details endpoint by place id. -/
structure ServeEnv extends GridEnv where
  detail : String → DetailOutcome

/-- The strategy dispatch of `serve` (index.ts lines 477-488):
`maxResults <= 60` runs a single standard search — with its api-call
estimate and the no-tiles meta of line 481 — otherwise the grid search.
The second component instruments the number of geocoding calls made. -/
def serveSearchPhase (env : ServeEnv) (baseLocation : String)
    (maxResults : ℕ) (searchIntensity : String) :
    Except String (List PlaceResult × ℕ × GridMeta) × ℕ :=
  if maxResults ≤ 60 then
    match performStandardSearch env.pages maxResults with
    | .ok l => (.ok (l, if 0 < l.length then ceilDiv20 l.length else 1,
        noTilesMeta l), 0)
    | .error e => (.error e, 0)
  else
    match performGridSearch env.toGridEnv baseLocation maxResults
        searchIntensity with
    | .ok r => (.ok (r.results, r.apiCalls, r.meta), r.geoCallsMade)
    | .error e => (.error e, 0)

/-- The `meta` object of the final response (index.ts lines 577-581
spread the search meta and add `detailsCalls` / `totalApiCalls`; the
empty-result response of lines 490-502 returns the search meta alone). -/
structure MetaOut where
  search : GridMeta
  detailsCalls : Option ℕ
  totalApiCalls : Option ℕ
deriving DecidableEq

/-- The HTTP response produced by `serve`, instrumented with the number
of details-endpoint fetches issued. -/
structure ServeResponse where
  status : ℕ
  results : List OutputRecord
  apiCallsUsed : ℕ
  meta : Option MetaOut
  errorMsg : Option String
  detailEndpointCalls : ℕ
deriving DecidableEq

/-- The `serve` handler after request validation (index.ts lines
472-598): run the chosen search; an escaped exception yields the generic
500; an empty result list yields the 200 of lines 490-502 with no detail
calls; otherwise enrich every place and respond 200. -/
def serveHandler (env : ServeEnv) (baseLocation : String) (maxResults : ℕ)
    (searchIntensity : String) : ServeResponse :=
  match (serveSearchPhase env baseLocation maxResults searchIntensity).1 with
  | .error _ => ⟨500, [], 0, none, some "Internal server error", 0⟩
  | .ok (l, calls, meta) =>
    if l.length = 0 then ⟨200, [], calls, some ⟨meta, none, none⟩, none, 0⟩
    else
      let detailed := l.map fun p => enrichPlace (env.detail p.place_id) p
      ⟨200, detailed, calls + detailed.length,
       some ⟨meta, some detailed.length, some (calls + detailed.length)⟩,
       none, detailed.length⟩

/-- Two tile result lists sharing the id `"x"`, for concrete checks. -/
def sampleTls : List (List PlaceResult) :=
  [[samplePlace "x"], [samplePlace "x", samplePlace "y"]]

/-- An `INVALID_REQUEST` response body. -/
def invalidResp : SearchResp := ⟨"INVALID_REQUEST", [], false⟩

/-- An attempt oracle whose every fetch resolves to `INVALID_REQUEST`. -/
def invAtt : ℕ → FetchOutcome := fun _ => .resp invalidResp

/-- A tile oracle: page 0 returns one result with a next-page token,
page 1 returns `ZERO_RESULTS`. -/
def tileAttOkThenZero : ℕ → ℕ → FetchOutcome := fun page _ =>
  if page = 0 then .resp ⟨"OK", [samplePlace "a"], true⟩
  else .resp ⟨"ZERO_RESULTS", [], false⟩

/-- The result list a tile search produces; the seen-set snapshot a tile
reads influences only its `uniqueNew` diagnostic, never its results (cf.
`tileGo_existing_irrelevant`). -/
def tileOutResults (att : ℕ → ℕ → ℕ → FetchOutcome) (n : ℕ) :
    List PlaceResult :=
  (performGridTileTextSearch (att n) []).results

/-- The coordinator's `(uniquePlaceIds, allResults)` state after merging
the outputs of the first `n` tiles in grid order. -/
def mergedPrefix (att : ℕ → ℕ → ℕ → FetchOutcome) (n : ℕ) :
    List String × List PlaceResult :=
  (((List.range n).map (tileOutResults att)).flatten).foldl addPlace ([], [])

/-- The early-termination contract of the batch loop: the processed
tiles are always a whole number of batches (a batch in flight completes
fully — the budget check runs only between batches), the accumulated
results are exactly the merge of those tiles' outputs in grid order, a
further batch is started only while the accumulated unique count is
below the budget, and stopping before the last tile implies the budget
was reached. -/
def GridLoopPost (att : ℕ → ℕ → ℕ → FetchOutcome) (tiles : List Tile)
    (maxResults : ℕ) (final : GridState) : Prop :=
  (∃ b2, final.tileLogs.length = min tiles.length (4 * b2)) ∧
  (final.seen, final.allResults) = mergedPrefix att final.tileLogs.length ∧
  (∀ j, 4 * (j + 1) < final.tileLogs.length →
      ((mergedPrefix att (4 * (j + 1))).2).length < maxResults) ∧
  (final.tileLogs.length < tiles.length → maxResults ≤ final.allResults.length)

/-- A 2×2 tile grid over the unit box, for concrete loop runs. -/
def fourTiles : List Tile := makeTiles ⟨0, 0⟩ ⟨1, 1⟩ 2

/-- A tile oracle where tile `t` returns the single place `toString t`
on its first page. -/
def overshootAtt : ℕ → ℕ → ℕ → FetchOutcome := fun t _ _ =>
  .resp ⟨"OK", [samplePlace (toString t)], false⟩

/-- A geocode oracle whose every response has a failing status. -/
def sampleGeoFail : String → GeoOutcome := fun _ => .resp ⟨"ZERO_RESULTS", []⟩

/-- A page oracle: one `OK` page of three places, no next-page token. -/
def samplePages : ℕ → SearchResp := fun _ =>
  ⟨"OK", [samplePlace "a", samplePlace "b", samplePlace "c"], false⟩

/-- A tile oracle answering `ZERO_RESULTS` everywhere. -/
def sampleTileZero : ℕ → ℕ → ℕ → FetchOutcome := fun _ _ _ =>
  .resp ⟨"ZERO_RESULTS", [], false⟩

/-- A grid environment whose geocoding fails by status on every attempt. -/
def sampleGridEnv : GridEnv := ⟨sampleGeoFail, samplePages, sampleTileZero⟩

/-- A grid environment whose first geocoding fetch throws. -/
def sampleGeoThrowEnv : GridEnv :=
  ⟨fun _ => .threw "boom", samplePages, sampleTileZero⟩

/-- A geocode oracle that succeeds with bounds `(0,0)-(1,1)`. -/
def sampleGeoOk : String → GeoOutcome := fun _ =>
  .resp ⟨"OK", [⟨⟨0, 0⟩, some ⟨⟨0, 0⟩, ⟨1, 1⟩⟩⟩]⟩

/-- A grid environment whose geocoding succeeds and whose tile `t`
returns the single place `toString t`. -/
def sampleGridEnvOk : GridEnv := ⟨sampleGeoOk, samplePages, overshootAtt⟩

/-- A place summary with every optional field populated. -/
def samplePlaceFull : PlaceResult :=
  ⟨"p1", "Name", "Addr", some "123", some 4, some 10, some "OPERATIONAL",
   some "https://x.example", some 2, ⟨0, 0⟩⟩

/-- A serve environment whose detail endpoint always throws. -/
def sampleServeEnvThrow : ServeEnv := ⟨sampleGridEnv, fun _ => .threw⟩

/-- A page oracle with no results at all. -/
def samplePagesEmpty : ℕ → SearchResp := fun _ => ⟨"ZERO_RESULTS", [], false⟩

/-- A serve environment whose search finds nothing. -/
def sampleServeEnvEmpty : ServeEnv :=
  ⟨⟨sampleGeoFail, samplePagesEmpty, sampleTileZero⟩, fun _ => .notOk⟩

/-- A page oracle delivering one place per page with a token every time. -/
def pagesPerOne : ℕ → SearchResp := fun i =>
  ⟨"OK", [samplePlace (toString i)], true⟩

/-- A page oracle whose first page already holds 61 places. -/
def bigPage : ℕ → SearchResp := fun _ =>
  ⟨"OK", (List.range 61).map fun i => samplePlace (toString i), false⟩

/-- The conclusion of the tile-coverage property: the generated tiles
span exactly the claimed sub-rectangles, there are `d²` of them, their
union is the box, and their interiors are pairwise disjoint. -/
def TilesPartition (sw ne : GeoLoc) (d : ℕ) : Prop :=
  (∀ i j, i < d → j < d →
      mkTile sw ne d i j ∈ makeTiles sw ne d ∧
      (mkTile sw ne d i j).swLat = sw.lat + i * cellDim sw.lat ne.lat d ∧
      (mkTile sw ne d i j).neLat = sw.lat + (i + 1) * cellDim sw.lat ne.lat d ∧
      (mkTile sw ne d i j).swLng = sw.lng + j * cellDim sw.lng ne.lng d ∧
      (mkTile sw ne d i j).neLng = sw.lng + (j + 1) * cellDim sw.lng ne.lng d) ∧
  (makeTiles sw ne d).length = d * d ∧
  (∀ x y, inBox sw ne x y ↔ ∃ t ∈ makeTiles sw ne d, inTile t x y) ∧
  (∀ i j k l, i < d → j < d → k < d → l < d → (i, j) ≠ (k, l) →
      ∀ x y, ¬(inTileInterior (mkTile sw ne d i j) x y ∧
               inTileInterior (mkTile sw ne d k l) x y))

theorem cellDim_nonneg {a b : ℚ} {d : ℕ} (hab : a ≤ b) :
    0 ≤ cellDim a b d := by
  unfold cellDim
  exact div_nonneg (by linarith) (by positivity)

theorem cover1D (a b : ℚ) (d : ℕ) (hd : 0 < d) (x : ℚ)
    (h1 : a ≤ x) (h2 : x ≤ b) :
    ∃ i : ℕ, i < d ∧ a + i * cellDim a b d ≤ x ∧
      x ≤ a + (i + 1) * cellDim a b d := by
  have hab : a ≤ b := le_trans h1 h2
  have hdq : (0 : ℚ) < (d : ℚ) := by exact_mod_cast hd
  have hc0 : 0 ≤ cellDim a b d := cellDim_nonneg hab
  rcases eq_or_lt_of_le hc0 with hc | hc
  · -- degenerate box: the cell is zero-width, so a = b = x and i = 0 works
    have hba : b - a = 0 := by
      have := hc.symm
      unfold cellDim at this
      field_simp at this
      linarith
    refine ⟨0, hd, ?_, ?_⟩
    · simpa using h1
    · rw [← hc]
      simpa using by linarith
  · -- positive cell: use the floor of the scaled offset, capped at d - 1
    set c := cellDim a b d with hcdef
    have hcne : c ≠ 0 := ne_of_gt hc
    have hdc : (d : ℚ) * c = b - a := by
      rw [hcdef]
      unfold cellDim
      field_simp
    have hnn : (0 : ℤ) ≤ ⌊(x - a) / c⌋ :=
      Int.floor_nonneg.mpr (div_nonneg (by linarith) (le_of_lt hc))
    refine ⟨min ⌊(x - a) / c⌋.toNat (d - 1), by omega, ?_, ?_⟩
    · have hle : ((min ⌊(x - a) / c⌋.toNat (d - 1) : ℕ) : ℚ) ≤ (x - a) / c := by
        have h3 : ((min ⌊(x - a) / c⌋.toNat (d - 1) : ℕ) : ℚ) ≤
            (⌊(x - a) / c⌋.toNat : ℚ) := by
          exact_mod_cast Nat.cast_le.mpr (min_le_left _ _)
        have h4 : ((⌊(x - a) / c⌋.toNat : ℤ) : ℚ) ≤ (x - a) / c := by
          rw [Int.toNat_of_nonneg hnn]
          exact Int.floor_le _
        calc ((min ⌊(x - a) / c⌋.toNat (d - 1) : ℕ) : ℚ)
            ≤ (⌊(x - a) / c⌋.toNat : ℚ) := h3
          _ = ((⌊(x - a) / c⌋.toNat : ℤ) : ℚ) := by push_cast; ring
          _ ≤ (x - a) / c := h4
      have := mul_le_mul_of_nonneg_right hle (le_of_lt hc)
      rw [div_mul_cancel₀ _ hcne] at this
      linarith
    · rcases le_or_lt ⌊(x - a) / c⌋.toNat (d - 1) with hcase | hcase
      · rw [min_eq_left hcase]
        have h5 : (x - a) / c < (⌊(x - a) / c⌋ : ℚ) + 1 := Int.lt_floor_add_one _
        have h6 : ((⌊(x - a) / c⌋.toNat : ℕ) : ℚ) = ((⌊(x - a) / c⌋ : ℤ) : ℚ) := by
          exact_mod_cast Int.toNat_of_nonneg hnn
        have h7 : x - a < ((⌊(x - a) / c⌋ : ℤ) : ℚ) * c + c := by
          have h8 := (div_lt_iff₀ hc).mp h5
          nlinarith
        have h9 : a + (((⌊(x - a) / c⌋.toNat : ℕ) : ℚ) + 1) * c =
            a + (((⌊(x - a) / c⌋ : ℤ) : ℚ) * c + c) := by
          rw [h6]
          ring
        rw [h9]
        linarith
      · rw [min_eq_right (le_of_lt hcase)]
        have h8 : ((d - 1 : ℕ) : ℚ) + 1 = (d : ℚ) := by
          have : (1 : ℕ) ≤ d := hd
          push_cast [Nat.cast_sub this]
          ring
        rw [h8, hdc]
        linarith

theorem sub1D (a b : ℚ) (d : ℕ) (hab : a ≤ b) (i : ℕ) (hi : i < d) :
    a ≤ a + i * cellDim a b d ∧ a + (i + 1) * cellDim a b d ≤ b := by
  have hc0 : 0 ≤ cellDim a b d := cellDim_nonneg hab
  have hd : 0 < d := by omega
  have hdq : (0 : ℚ) < (d : ℚ) := by exact_mod_cast hd
  have hdc : (d : ℚ) * cellDim a b d = b - a := by
    unfold cellDim
    field_simp
  constructor
  · have : 0 ≤ (i : ℚ) * cellDim a b d := by positivity
    linarith
  · have hle : ((i : ℚ) + 1) ≤ (d : ℚ) := by exact_mod_cast hi
    have := mul_le_mul_of_nonneg_right hle hc0
    linarith

theorem disj1D (a b : ℚ) (d : ℕ) (hab : a ≤ b) (i j : ℕ) (hij : i < j)
    (x : ℚ) (hx1 : x < a + (i + 1) * cellDim a b d)
    (hx2 : a + j * cellDim a b d < x) : False := by
  have hc0 : 0 ≤ cellDim a b d := cellDim_nonneg hab
  have hle : ((i : ℚ) + 1) ≤ (j : ℚ) := by exact_mod_cast hij
  have := mul_le_mul_of_nonneg_right hle hc0
  linarith

theorem mem_makeTiles {sw ne : GeoLoc} {d : ℕ} {t : Tile} :
    t ∈ makeTiles sw ne d ↔
      ∃ i, i < d ∧ ∃ j, j < d ∧ t = mkTile sw ne d i j := by
  simp only [makeTiles, List.mem_flatMap, List.mem_map, List.mem_range]
  constructor
  · rintro ⟨i, hi, j, hj, rfl⟩
    exact ⟨i, hi, j, hj, rfl⟩
  · rintro ⟨i, hi, j, hj, rfl⟩
    exact ⟨i, hi, j, hj, rfl⟩

theorem stdGoV0_pages_le (pages : ℕ → SearchResp) :
    ∀ fuel pageCount acc, pageCount + fuel ≤ 3 →
      ∀ l pc, stdGoV0 pages fuel pageCount acc = .ok (l, pc) → pc ≤ 3 := by
  intro fuel
  induction fuel with
  | zero =>
    intro pageCount acc hpc l pc heq
    simp only [stdGoV0, Except.ok.injEq, Prod.mk.injEq] at heq
    omega
  | succ n ih =>
    intro pageCount acc hpc l pc heq
    simp only [stdGoV0] at heq
    split at heq
    · split at heq
      · exact absurd heq (by simp)
      · simp only [Except.ok.injEq, Prod.mk.injEq] at heq
        omega
    · split at heq
      · simp only [Except.ok.injEq, Prod.mk.injEq] at heq
        omega
      · split at heq
        · exact ih _ _ (by omega) _ _ heq
        · simp only [Except.ok.injEq, Prod.mk.injEq] at heq
          omega

theorem stdGo_length_le (pages : ℕ → SearchResp) (maxResults : ℕ) :
    ∀ fuel pageCount acc, acc.length ≤ maxResults →
      ∀ l pc, stdGo pages maxResults fuel pageCount acc = .ok (l, pc) →
        l.length ≤ maxResults := by
  intro fuel
  induction fuel with
  | zero =>
    intro pageCount acc hacc l pc heq
    simp only [stdGo, Except.ok.injEq, Prod.mk.injEq] at heq
    exact heq.1 ▸ hacc
  | succ n ih =>
    intro pageCount acc hacc l pc heq
    simp only [stdGo] at heq
    split at heq
    · split at heq
      · exact absurd heq (by simp)
      · simp only [Except.ok.injEq, Prod.mk.injEq] at heq
        exact heq.1 ▸ hacc
    · split at heq
      · simp only [Except.ok.injEq, Prod.mk.injEq] at heq
        exact heq.1 ▸ hacc
      · split at heq
        · rename_i hge
          simp only [Except.ok.injEq, Prod.mk.injEq] at heq
          rw [← heq.1]
          simp [List.length_take]
        · rename_i hlt
          split at heq
          · exact ih _ _ (by omega) _ _ heq
          · simp only [Except.ok.injEq, Prod.mk.injEq] at heq
            rw [← heq.1]
            omega

theorem makeTiles_length (sw ne : GeoLoc) (d : ℕ) :
    (makeTiles sw ne d).length = d * d := by
  simp [makeTiles, Function.comp_def, List.map_const', List.sum_replicate, smul_eq_mul]

/-- C2 — the partitioner generates `d²` tiles spanning exactly
`[sw.lat + i·cellLat, sw.lat + (i+1)·cellLat] ×
 [sw.lng + j·cellLng, sw.lng + (j+1)·cellLng]`, whose union is the
original box and whose interiors are pairwise disjoint (exact rational
arithmetic). -/
theorem claim2_tile_partition (sw ne : GeoLoc) (d : ℕ)
    (hlat : sw.lat ≤ ne.lat) (hlng : sw.lng ≤ ne.lng) (hd : 0 < d) :
    TilesPartition sw ne d := by
  refine ⟨?_, makeTiles_length sw ne d, ?_, ?_⟩
  · intro i j hi hj
    refine ⟨mem_makeTiles.mpr ⟨i, hi, j, hj, rfl⟩, ?_, ?_, ?_, ?_⟩ <;>
      simp only [mkTile] <;> ring
  · intro x y
    constructor
    · rintro ⟨hx1, hx2, hy1, hy2⟩
      obtain ⟨i, hi, hxl, hxr⟩ := cover1D sw.lat ne.lat d hd x hx1 hx2
      obtain ⟨j, hj, hyl, hyr⟩ := cover1D sw.lng ne.lng d hd y hy1 hy2
      refine ⟨mkTile sw ne d i j, mem_makeTiles.mpr ⟨i, hi, j, hj, rfl⟩, ?_⟩
      simp only [inTile, mkTile]
      have e1 : sw.lat + (i : ℚ) * cellDim sw.lat ne.lat d + cellDim sw.lat ne.lat d =
          sw.lat + ((i : ℚ) + 1) * cellDim sw.lat ne.lat d := by ring
      have e2 : sw.lng + (j : ℚ) * cellDim sw.lng ne.lng d + cellDim sw.lng ne.lng d =
          sw.lng + ((j : ℚ) + 1) * cellDim sw.lng ne.lng d := by ring
      exact ⟨hxl, by rw [e1]; exact_mod_cast hxr, hyl, by rw [e2]; exact_mod_cast hyr⟩
    · rintro ⟨t, ht, hin⟩
      obtain ⟨i, hi, j, hj, rfl⟩ := mem_makeTiles.mp ht
      obtain ⟨h1, h2⟩ := sub1D sw.lat ne.lat d hlat i hi
      obtain ⟨h3, h4⟩ := sub1D sw.lng ne.lng d hlng j hj
      simp only [inTile, mkTile] at hin
      have e1 : sw.lat + (i : ℚ) * cellDim sw.lat ne.lat d + cellDim sw.lat ne.lat d =
          sw.lat + ((i : ℚ) + 1) * cellDim sw.lat ne.lat d := by ring
      have e2 : sw.lng + (j : ℚ) * cellDim sw.lng ne.lng d + cellDim sw.lng ne.lng d =
          sw.lng + ((j : ℚ) + 1) * cellDim sw.lng ne.lng d := by ring
      obtain ⟨g1, g2, g3, g4⟩ := hin
      exact ⟨by linarith, by rw [e1] at g2; linarith, by linarith, by rw [e2] at g4; linarith⟩
  · intro i j k l hi hj hk hl hne x y hboth
    obtain ⟨hA, hB⟩ := hboth
    simp only [inTileInterior, mkTile] at hA hB
    obtain ⟨a1, a2, a3, a4⟩ := hA
    obtain ⟨b1, b2, b3, b4⟩ := hB
    have e1 : ∀ m : ℕ, sw.lat + (m : ℚ) * cellDim sw.lat ne.lat d + cellDim sw.lat ne.lat d =
        sw.lat + ((m : ℚ) + 1) * cellDim sw.lat ne.lat d := by intro m; ring
    have e2 : ∀ m : ℕ, sw.lng + (m : ℚ) * cellDim sw.lng ne.lng d + cellDim sw.lng ne.lng d =
        sw.lng + ((m : ℚ) + 1) * cellDim sw.lng ne.lng d := by intro m; ring
    by_cases hik : i = k
    · subst hik
      have hjl : j ≠ l := by
        intro h
        exact hne (by rw [h])
      rcases Nat.lt_or_ge j l with hlt | hge
      · exact disj1D sw.lng ne.lng d hlng j l hlt y (by rw [← e2 j]; exact a4) b3
      · have hlt : l < j := by omega
        exact disj1D sw.lng ne.lng d hlng l j hlt y (by rw [← e2 l]; exact b4) a3
    · rcases Nat.lt_or_ge i k with hlt | hge
      · exact disj1D sw.lat ne.lat d hlat i k hlt x (by rw [← e1 i]; exact a2) b1
      · have hlt : k < i := by omega
        exact disj1D sw.lat ne.lat d hlat k i hlt x (by rw [← e1 k]; exact b2) a1

theorem foldl_addPlace_eq (places : List PlaceResult) :
    ∀ s : List String × List PlaceResult,
      places.foldl addPlace s = dedupGo s.1 s.2 places := by
  induction places with
  | nil => intro s; simp [dedupGo]
  | cons p ps ih =>
    intro s
    rw [List.foldl_cons, ih]
    by_cases h : p.place_id ∈ s.1
    · simp [addPlace, dedupGo, h]
    · simp [addPlace, dedupGo, h]

theorem foldl_mergeTilePlaces_eq (tls : List (List PlaceResult)) :
    ∀ s : List String × List PlaceResult,
      tls.foldl mergeTilePlaces s = tls.flatten.foldl addPlace s := by
  induction tls with
  | nil => intro s; simp
  | cons l ls ih =>
    intro s
    rw [List.foldl_cons, ih, List.flatten_cons, List.foldl_append]
    rfl

theorem mergeTiles_eq_dedup (tls : List (List PlaceResult)) :
    mergeTiles tls = (dedupGo [] [] tls.flatten).2 := by
  unfold mergeTiles
  rw [foldl_mergeTilePlaces_eq, foldl_addPlace_eq]

theorem dedupGo_acc (l : List PlaceResult) :
    ∀ seen acc, dedupGo seen acc l =
      ((dedupGo seen [] l).1, acc ++ (dedupGo seen [] l).2) := by
  induction l with
  | nil => intro seen acc; simp [dedupGo]
  | cons p ps ih =>
    intro seen acc
    by_cases h : p.place_id ∈ seen
    · simp only [dedupGo, if_pos h]
      exact ih seen acc
    · simp only [dedupGo, if_neg h]
      rw [ih _ (acc ++ [p]), ih _ ([] ++ [p])]
      simp

theorem dedupGo_filter (id : String) (l : List PlaceResult) :
    ∀ seen, ((dedupGo seen [] l).2).filter (fun p => decide (p.place_id = id)) =
      if id ∈ seen then []
      else (l.filter (fun p => decide (p.place_id = id))).take 1 := by
  induction l with
  | nil => intro seen; simp [dedupGo]
  | cons p ps ih =>
    intro seen
    by_cases hmem : p.place_id ∈ seen
    · simp only [dedupGo, if_pos hmem]
      rw [ih]
      by_cases hid : p.place_id = id
      · subst hid
        simp [hmem, List.filter_cons]
      · simp [List.filter_cons, hid]
    · simp only [dedupGo, if_neg hmem, List.nil_append]
      rw [dedupGo_acc ps (seen ++ [p.place_id]) [p]]
      by_cases hid : p.place_id = id
      · subst hid
        have hmem2 : p.place_id ∈ seen ++ [p.place_id] := by simp
        simp only [List.filter_append, ih, if_pos hmem2]
        simp [List.filter_cons, hmem]
      · have hmem2 : (id ∈ seen ++ [p.place_id]) ↔ id ∈ seen := by
          simp only [List.mem_append, List.mem_singleton]
          constructor
          · rintro (h | h)
            · exact h
            · exact absurd h.symm hid
          · exact fun h => Or.inl h
        simp only [List.filter_append, ih]
        by_cases hseen : id ∈ seen
        · simp [hseen, hmem2.mpr hseen, List.filter_cons, hid]
        · have : ¬ (id ∈ seen ++ [p.place_id]) := fun h => hseen (hmem2.mp h)
          simp [hseen, this, List.filter_cons, hid]

theorem dedupGo_sublist (l : List PlaceResult) :
    ∀ seen, ((dedupGo seen [] l).2).Sublist l := by
  induction l with
  | nil => intro seen; simp [dedupGo]
  | cons p ps ih =>
    intro seen
    by_cases h : p.place_id ∈ seen
    · simp only [dedupGo, if_pos h]
      exact (ih seen).cons p
    · simp only [dedupGo, if_neg h, List.nil_append]
      rw [dedupGo_acc ps (seen ++ [p.place_id]) [p]]
      exact (ih (seen ++ [p.place_id])).cons₂ p

/-- C3 — merging tile result lists that share an identifier yields
exactly one entry for it: the first occurrence in grid/response order;
the merged list is an order-preserving subsequence of the concatenation
of the tile lists in grid order (so the output order is tile iteration
order, and response order within a tile, independent of completion
timing). -/
theorem claim3_merge_first_seen_wins (tls : List (List PlaceResult))
    (i j : ℕ) (id : String) (hi : i < tls.length) (hj : j < tls.length)
    (hij : i ≠ j)
    (h1 : id ∈ (tls.get ⟨i, hi⟩).map (fun p => p.place_id))
    (h2 : id ∈ (tls.get ⟨j, hj⟩).map (fun p => p.place_id)) :
    ((mergeTiles tls).filter (fun p => decide (p.place_id = id))).length = 1 ∧
    (mergeTiles tls).filter (fun p => decide (p.place_id = id)) =
      (tls.flatten.filter (fun p => decide (p.place_id = id))).take 1 ∧
    (mergeTiles tls).Sublist tls.flatten := by
  have hfil : (mergeTiles tls).filter (fun p => decide (p.place_id = id)) =
      (tls.flatten.filter (fun p => decide (p.place_id = id))).take 1 := by
    rw [mergeTiles_eq_dedup, dedupGo_filter]
    simp
  have hpresent : ∃ p, p ∈ tls.flatten ∧ p.place_id = id := by
    obtain ⟨p, hp, hpid⟩ := List.mem_map.mp h1
    exact ⟨p, List.mem_flatten.mpr ⟨tls.get ⟨i, hi⟩, List.get_mem tls i hi, hp⟩, hpid⟩
  have hne : tls.flatten.filter (fun p => decide (p.place_id = id)) ≠ [] := by
    obtain ⟨p, hp, hpid⟩ := hpresent
    intro hnil
    have := List.filter_eq_nil_iff.mp hnil p hp
    simp [hpid] at this
  have hlen : ((tls.flatten.filter (fun p => decide (p.place_id = id))).take 1).length = 1 := by
    cases hcase : tls.flatten.filter (fun p => decide (p.place_id = id)) with
    | nil => exact absurd hcase hne
    | cons q qs => simp
  refine ⟨?_, hfil, ?_⟩
  · rw [hfil]
    exact hlen
  · rw [mergeTiles_eq_dedup]
    exact dedupGo_sublist tls.flatten []

theorem claim3_witness :
    ((mergeTiles sampleTls).filter (fun p => decide (p.place_id = "x"))).length = 1 ∧
    (mergeTiles sampleTls).filter (fun p => decide (p.place_id = "x")) =
      (sampleTls.flatten.filter (fun p => decide (p.place_id = "x"))).take 1 ∧
    (mergeTiles sampleTls).Sublist sampleTls.flatten :=
  claim3_merge_first_seen_wins sampleTls 0 1 "x" (by decide) (by decide)
    (by decide) (by decide) (by decide)


theorem fetchWithRetryGo_attempts_le (att : ℕ → FetchOutcome) (retries : ℕ) :
    ∀ fuel attempt delays r del n, attempt + fuel = retries →
      fetchWithRetryGo att retries fuel attempt delays = .ok (r, del, n) →
      n ≤ retries := by
  intro fuel
  induction fuel with
  | zero =>
    intro attempt delays r del n hsum heq
    simp only [fetchWithRetryGo, Except.ok.injEq, Prod.mk.injEq] at heq
    omega
  | succ m ih =>
    intro attempt delays r del n hsum heq
    simp only [fetchWithRetryGo] at heq
    split at heq
    · split at heq
      · exact ih _ _ _ _ _ (by omega) heq
      · simp only [Except.ok.injEq, Prod.mk.injEq] at heq
        omega
    · split at heq
      · exact absurd heq (by simp)
      · exact ih _ _ _ _ _ (by omega) heq

theorem fetchGo_step_invalid (att : ℕ → FetchOutcome) (retries fuel attempt : ℕ)
    (delays : List ℕ) (r : SearchResp) (h : att attempt = .resp r)
    (hs : r.status = "INVALID_REQUEST") (hlt : attempt < retries - 1) :
    fetchWithRetryGo att retries (fuel + 1) attempt delays =
      fetchWithRetryGo att retries fuel (attempt + 1)
        (delays ++ [2 ^ attempt * 1000]) := by
  simp only [fetchWithRetryGo, h]
  rw [if_pos ⟨hs, hlt⟩]

theorem fetchGo_step_return (att : ℕ → FetchOutcome) (retries fuel attempt : ℕ)
    (delays : List ℕ) (r : SearchResp) (h : att attempt = .resp r)
    (hc : ¬(r.status = "INVALID_REQUEST" ∧ attempt < retries - 1)) :
    fetchWithRetryGo att retries (fuel + 1) attempt delays =
      .ok (r, delays, attempt + 1) := by
  simp only [fetchWithRetryGo, h]
  rw [if_neg hc]

theorem tileGo_step_ok (att : ℕ → ℕ → FetchOutcome) (existing : List String)
    (fuel pageCount : ℕ) (st : TileState) (r : SearchResp) (d : List ℕ) (n : ℕ)
    (h : fetchWithRetry (att pageCount) 3 = .ok (r, d, n))
    (hok : r.status = "OK") (hne : r.results ≠ [])
    (hnext : r.hasNext = true ∧ pageCount + 1 < 3) :
    tileGo att existing (fuel + 1) pageCount st =
      tileGo att existing fuel (pageCount + 1)
        ⟨st.results ++ r.results, st.apiCalls + 1,
         st.rawResultsCount + r.results.length,
         st.uniqueNewCount +
           (r.results.filter fun p => !decide (p.place_id ∈ existing)).length⟩ := by
  simp only [tileGo, h]
  rw [if_pos ⟨hok, hne⟩, if_pos hnext]

theorem tileGo_step_stop (att : ℕ → ℕ → FetchOutcome) (existing : List String)
    (fuel pageCount : ℕ) (st : TileState) (r : SearchResp) (d : List ℕ) (n : ℕ)
    (h : fetchWithRetry (att pageCount) 3 = .ok (r, d, n))
    (hbad : ¬(r.status = "OK" ∧ r.results ≠ [])) :
    tileGo att existing (fuel + 1) pageCount st =
      ⟨st.results, st.apiCalls + 1, st.rawResultsCount, st.uniqueNewCount⟩ := by
  simp only [tileGo, h]
  rw [if_neg hbad]

/-- C7 (amended) — a transient `INVALID_REQUEST` response is retried
with exponential backoff of 1s then 2s, within the bound of 3 total
attempts (the 4s step of the `2^attempt` schedule is unreachable: the
third attempt is returned, not retried); after the final attempt the
response data is returned rather than an exception, so the tile keeps
its accumulated results; and any non-`OK` status (`ZERO_RESULTS`
included) stops that tile's pagination without raising. -/
theorem claim7_retry_backoff_bounded :
    (∀ (att : ℕ → FetchOutcome) r0 r1 r2,
      att 0 = .resp r0 → r0.status = "INVALID_REQUEST" →
      att 1 = .resp r1 → r1.status = "INVALID_REQUEST" →
      att 2 = .resp r2 →
      fetchWithRetry att 3 = .ok (r2, [1000, 2000], 3)) ∧
    (∀ (att : ℕ → FetchOutcome) r del n,
      fetchWithRetry att 3 = .ok (r, del, n) → n ≤ 3) ∧
    (∀ (att : ℕ → ℕ → FetchOutcome) (existing : List String) r0 d0 n0 r1 d1 n1,
      fetchWithRetry (att 0) 3 = .ok (r0, d0, n0) →
      r0.status = "OK" → r0.results ≠ [] → r0.hasNext = true →
      fetchWithRetry (att 1) 3 = .ok (r1, d1, n1) →
      r1.status ≠ "OK" →
      performGridTileTextSearch att existing =
        ⟨r0.results, 2, r0.results.length,
         (r0.results.filter fun p => !decide (p.place_id ∈ existing)).length⟩) := by
  refine ⟨?_, ?_, ?_⟩
  · intro att r0 r1 r2 h0 hs0 h1 hs1 h2
    unfold fetchWithRetry
    show fetchWithRetryGo att 3 (2 + 1) 0 [] = _
    rw [fetchGo_step_invalid att 3 2 0 [] r0 h0 hs0 (by omega)]
    show fetchWithRetryGo att 3 (1 + 1) 1 ([] ++ [2 ^ 0 * 1000]) = _
    rw [fetchGo_step_invalid att 3 1 1 ([] ++ [2 ^ 0 * 1000]) r1 h1 hs1 (by omega)]
    show fetchWithRetryGo att 3 (0 + 1) 2 (([] ++ [2 ^ 0 * 1000]) ++ [2 ^ 1 * 1000]) = _
    rw [fetchGo_step_return att 3 0 2 (([] ++ [2 ^ 0 * 1000]) ++ [2 ^ 1 * 1000]) r2 h2
      (by intro hc; omega)]
    simp
  · intro att r del n heq
    exact fetchWithRetryGo_attempts_le att 3 3 0 [] r del n (by norm_num) heq
  · intro att existing r0 d0 n0 r1 d1 n1 h0 hok hne hnext h1 hbad
    unfold performGridTileTextSearch
    show tileGo att existing (2 + 1) 0 initTileState = _
    rw [tileGo_step_ok att existing 2 0 initTileState r0 d0 n0 h0 hok hne
      ⟨hnext, by omega⟩]
    show tileGo att existing (1 + 1) 1
      ⟨initTileState.results ++ r0.results, initTileState.apiCalls + 1,
       initTileState.rawResultsCount + r0.results.length,
       initTileState.uniqueNewCount +
         (r0.results.filter fun p => !decide (p.place_id ∈ existing)).length⟩ = _
    rw [tileGo_step_stop att existing 1 1 _ r1 d1 n1 h1 (fun hc => hbad hc.1)]
    simp [initTileState]

theorem claim7_witness :
    fetchWithRetry invAtt 3 = .ok (invalidResp, [1000, 2000], 3) ∧
    (3 : ℕ) ≤ 3 ∧
    performGridTileTextSearch tileAttOkThenZero ["a"] =
      ⟨[samplePlace "a"], 2, 1,
       ([samplePlace "a"].filter fun p => !decide (p.place_id ∈ ["a"])).length⟩ := by
  refine ⟨?_, ?_, ?_⟩
  · exact claim7_retry_backoff_bounded.1 invAtt invalidResp invalidResp
      invalidResp rfl rfl rfl rfl rfl
  · exact claim7_retry_backoff_bounded.2.1 invAtt invalidResp [1000, 2000] 3
      (claim7_retry_backoff_bounded.1 invAtt invalidResp invalidResp invalidResp
        rfl rfl rfl rfl rfl)
  · exact claim7_retry_backoff_bounded.2.2 tileAttOkThenZero ["a"]
      ⟨"OK", [samplePlace "a"], true⟩ [] 1 ⟨"ZERO_RESULTS", [], false⟩ [] 1
      rfl rfl (by decide) rfl rfl (by decide)

/-- C7 counterexample — even when every attempt resolves to
`INVALID_REQUEST`, the delays waited are exactly 1s and 2s: the 4s
backoff delay asserted by the claim never occurs, because only 2 retries
can follow the first of the 3 attempts. -/
theorem claim7_counterexample :
    fetchWithRetry invAtt 3 = .ok (invalidResp, [1000, 2000], 3) ∧
    (4000 : ℕ) ∉ ([1000, 2000] : List ℕ) := by
  constructor
  · rfl
  · decide

theorem tileGo_existing_irrelevant (att : ℕ → ℕ → FetchOutcome) :
    ∀ fuel pageCount (e1 e2 : List String) (s1 s2 : TileState),
      s1.results = s2.results → s1.apiCalls = s2.apiCalls →
      s1.rawResultsCount = s2.rawResultsCount →
      (tileGo att e1 fuel pageCount s1).results =
        (tileGo att e2 fuel pageCount s2).results ∧
      (tileGo att e1 fuel pageCount s1).apiCalls =
        (tileGo att e2 fuel pageCount s2).apiCalls ∧
      (tileGo att e1 fuel pageCount s1).rawResultsCount =
        (tileGo att e2 fuel pageCount s2).rawResultsCount := by
  intro fuel
  induction fuel with
  | zero =>
    intro pc e1 e2 s1 s2 h1 h2 h3
    exact ⟨h1, h2, h3⟩
  | succ m ih =>
    intro pc e1 e2 s1 s2 h1 h2 h3
    cases hf : fetchWithRetry (att pc) 3 with
    | error e =>
      simp only [tileGo, hf]
      exact ⟨h1, h2, h3⟩
    | ok v =>
      obtain ⟨r, d, n⟩ := v
      simp only [tileGo, hf]
      split
      · split
        · exact ih (pc + 1) e1 e2 _ _ (by simp [h1]) (by simp [h2]) (by simp [h3])
        · exact ⟨by simp [h1], by simp [h2], by simp [h3]⟩
      · exact ⟨by simp [h1], by simp [h2], by simp [h3]⟩

theorem tile_results_existing_irrelevant (att : ℕ → ℕ → ℕ → FetchOutcome)
    (k : ℕ) (e : List String) :
    (performGridTileTextSearch (att k) e).results = tileOutResults att k := by
  unfold tileOutResults performGridTileTextSearch
  exact (tileGo_existing_irrelevant (att k) 3 0 e [] initTileState initTileState
    rfl rfl rfl).1

theorem processBatch_char (outs : List (Tile × TileState)) :
    ∀ st : GridState,
      ((processBatchResults st outs).seen,
       (processBatchResults st outs).allResults) =
        ((outs.map fun ts => ts.2.results).flatten).foldl addPlace
          (st.seen, st.allResults) ∧
      (processBatchResults st outs).tileLogs.length =
        st.tileLogs.length + outs.length := by
  induction outs with
  | nil => intro st; simp [processBatchResults]
  | cons ts rest ih =>
    intro st
    obtain ⟨t, out⟩ := ts
    have hstep : processBatchResults st ((t, out) :: rest) =
        processBatchResults (processTileOutcome st t out) rest := by
      simp [processBatchResults]
    have hpto : ((processTileOutcome st t out).seen,
        (processTileOutcome st t out).allResults) =
        out.results.foldl addPlace (st.seen, st.allResults) := by
      simp [processTileOutcome, mergeTilePlaces]
    have hptl : (processTileOutcome st t out).tileLogs.length =
        st.tileLogs.length + 1 := by
      simp [processTileOutcome]
    obtain ⟨ihp, ihl⟩ := ih (processTileOutcome st t out)
    constructor
    · rw [hstep, ihp, hpto, List.map_cons, List.flatten_cons, List.foldl_append]
    · rw [hstep, ihl, hptl, List.length_cons]
      omega

theorem gridLoop_step (att : ℕ → ℕ → ℕ → FetchOutcome) (tiles : List Tile)
    (maxResults m b : ℕ) (st : GridState) (hb : 4 * b < tiles.length) :
    gridLoopGo att tiles maxResults (m + 1) (4 * b) st =
      (if maxResults ≤
          (processBatchResults st (((tiles.drop (4 * b)).take 4).enum.map
            fun kt => (kt.2,
              performGridTileTextSearch (att (4 * b + kt.1)) st.seen))).allResults.length
       then processBatchResults st (((tiles.drop (4 * b)).take 4).enum.map
          fun kt => (kt.2,
            performGridTileTextSearch (att (4 * b + kt.1)) st.seen))
       else gridLoopGo att tiles maxResults m (4 * b + 4)
          (processBatchResults st (((tiles.drop (4 * b)).take 4).enum.map
            fun kt => (kt.2,
              performGridTileTextSearch (att (4 * b + kt.1)) st.seen)))) := by
  simp only [gridLoopGo, if_pos hb]

theorem batch_pair_char (att : ℕ → ℕ → ℕ → FetchOutcome) (tiles : List Tile)
    (b : ℕ) (st : GridState)
    (hpair : (st.seen, st.allResults) = mergedPrefix att (4 * b)) :
    ((processBatchResults st (((tiles.drop (4 * b)).take 4).enum.map
        fun kt => (kt.2,
          performGridTileTextSearch (att (4 * b + kt.1)) st.seen))).seen,
     (processBatchResults st (((tiles.drop (4 * b)).take 4).enum.map
        fun kt => (kt.2,
          performGridTileTextSearch (att (4 * b + kt.1)) st.seen))).allResults) =
      mergedPrefix att (4 * b + ((tiles.drop (4 * b)).take 4).length) ∧
    (processBatchResults st (((tiles.drop (4 * b)).take 4).enum.map
        fun kt => (kt.2,
          performGridTileTextSearch (att (4 * b + kt.1)) st.seen))).tileLogs.length =
      st.tileLogs.length + ((tiles.drop (4 * b)).take 4).length := by
  obtain ⟨hp, hl⟩ := processBatch_char
    (((tiles.drop (4 * b)).take 4).enum.map
      fun kt => (kt.2,
        performGridTileTextSearch (att (4 * b + kt.1)) st.seen)) st
  have hmapres : ((((tiles.drop (4 * b)).take 4).enum.map
      fun kt => (kt.2,
        performGridTileTextSearch (att (4 * b + kt.1)) st.seen)).map
        fun ts => ts.2.results) =
      (List.range ((tiles.drop (4 * b)).take 4).length).map
        fun k => tileOutResults att (4 * b + k) := by
    rw [List.map_map]
    have h1 : (((tiles.drop (4 * b)).take 4).enum.map
        fun kt => tileOutResults att (4 * b + kt.1)) =
        (List.range ((tiles.drop (4 * b)).take 4).length).map
          fun k => tileOutResults att (4 * b + k) := by
      rw [← List.enum_map_fst ((tiles.drop (4 * b)).take 4), List.map_map]
      rfl
    rw [← h1]
    apply List.map_congr_left
    intro kt _
    simp only [Function.comp]
    exact tile_results_existing_irrelevant att (4 * b + kt.1) st.seen
  have hmp : mergedPrefix att (4 * b + ((tiles.drop (4 * b)).take 4).length) =
      (((List.range ((tiles.drop (4 * b)).take 4).length).map
        fun k => tileOutResults att (4 * b + k)).flatten).foldl addPlace
        (mergedPrefix att (4 * b)) := by
    unfold mergedPrefix
    rw [List.range_add, List.map_append, List.flatten_append, List.foldl_append]
    rw [List.map_map]
    rfl
  constructor
  · rw [hp, hmapres, hmp, hpair]
  · rw [hl, List.length_map, List.enum_length]

theorem gridLoopGo_post (att : ℕ → ℕ → ℕ → FetchOutcome) (tiles : List Tile)
    (maxResults : ℕ) :
    ∀ fuel b (st : GridState),
      tiles.length ≤ 4 * b + 4 * fuel →
      st.tileLogs.length = min tiles.length (4 * b) →
      (st.seen, st.allResults) = mergedPrefix att (min tiles.length (4 * b)) →
      (∀ n, 0 < n → 4 * n ≤ 4 * b → 4 * n ≤ tiles.length →
        ((mergedPrefix att (4 * n)).2).length < maxResults) →
      GridLoopPost att tiles maxResults
        (gridLoopGo att tiles maxResults fuel (4 * b) st) := by
  intro fuel
  induction fuel with
  | zero =>
    intro b st hlen hlogs hpair hhist
    have hminl : min tiles.length (4 * b) = tiles.length := by omega
    simp only [gridLoopGo]
    refine ⟨⟨b, hlogs⟩, by rw [hlogs]; exact hpair, ?_, ?_⟩
    · intro j hj
      rw [hlogs, hminl] at hj
      exact hhist (j + 1) (by omega) (by omega) (by omega)
    · intro hlt
      rw [hlogs, hminl] at hlt
      omega
  | succ m ih =>
    intro b st hlen hlogs hpair hhist
    by_cases hb : 4 * b < tiles.length
    · have hminb : min tiles.length (4 * b) = 4 * b := by omega
      have hpair2 : (st.seen, st.allResults) = mergedPrefix att (4 * b) := by
        rw [hpair, hminb]
      obtain ⟨hp2, hl2⟩ := batch_pair_char att tiles b st hpair2
      have hblv : ((tiles.drop (4 * b)).take 4).length =
          min 4 (tiles.length - 4 * b) := by
        simp [List.length_take, List.length_drop]
      rw [gridLoop_step att tiles maxResults m b st hb]
      have hlen2 : (processBatchResults st (((tiles.drop (4 * b)).take 4).enum.map
          fun kt => (kt.2,
            performGridTileTextSearch (att (4 * b + kt.1)) st.seen))).tileLogs.length =
          min tiles.length (4 * (b + 1)) := by
        rw [hl2, hlogs, hblv]
        omega
      have harg : 4 * b + ((tiles.drop (4 * b)).take 4).length =
          min tiles.length (4 * (b + 1)) := by
        rw [hblv]
        omega
      have hpair3 : ((processBatchResults st (((tiles.drop (4 * b)).take 4).enum.map
          fun kt => (kt.2,
            performGridTileTextSearch (att (4 * b + kt.1)) st.seen))).seen,
          (processBatchResults st (((tiles.drop (4 * b)).take 4).enum.map
          fun kt => (kt.2,
            performGridTileTextSearch (att (4 * b + kt.1)) st.seen))).allResults) =
          mergedPrefix att (min tiles.length (4 * (b + 1))) := by
        rw [hp2, harg]
      by_cases hstop : maxResults ≤
          (processBatchResults st (((tiles.drop (4 * b)).take 4).enum.map
            fun kt => (kt.2,
              performGridTileTextSearch (att (4 * b + kt.1)) st.seen))).allResults.length
      · rw [if_pos hstop]
        refine ⟨⟨b + 1, hlen2⟩, by rw [hlen2]; exact hpair3, ?_, fun _ => hstop⟩
        intro j hj
        rw [hlen2] at hj
        exact hhist (j + 1) (by omega) (by omega) (by omega)
      · rw [if_neg hstop]
        have hconv : 4 * b + 4 = 4 * (b + 1) := by ring
        rw [hconv]
        apply ih (b + 1) _ (by omega) hlen2 hpair3
        intro n hn hnb hnl
        by_cases hcase : n ≤ b
        · exact hhist n hn (by omega) hnl
        · have hnb1 : n = b + 1 := by omega
          subst hnb1
          have hm : min tiles.length (4 * (b + 1)) = 4 * (b + 1) := by omega
          rw [hm] at hpair3
          have h2 : (processBatchResults st (((tiles.drop (4 * b)).take 4).enum.map
              fun kt => (kt.2,
                performGridTileTextSearch (att (4 * b + kt.1)) st.seen))).allResults =
              (mergedPrefix att (4 * (b + 1))).2 := congrArg Prod.snd hpair3
          rw [← h2]
          omega
    · have hminl : min tiles.length (4 * b) = tiles.length := by omega
      simp only [gridLoopGo, if_neg hb]
      refine ⟨⟨b, hlogs⟩, by rw [hlogs]; exact hpair, ?_, ?_⟩
      · intro j hj
        rw [hlogs, hminl] at hj
        exact hhist (j + 1) (by omega) (by omega) (by omega)
      · intro hlt
        rw [hlogs, hminl] at hlt
        omega

/-- C8 — once the accumulated unique count reaches the budget no further
batch is started: the processed tiles always form whole batches of 4
(checks happen only between batches, so a batch in flight completes
fully), the accumulated results are the grid-order merge of exactly
those tiles, every batch after the first is started only while the
count is below the budget, and an early stop implies the budget was
reached; the concrete run shows the pre-truncation count may overshoot
the budget (4 uniques against a budget of 2). -/
theorem claim8_early_termination (att : ℕ → ℕ → ℕ → FetchOutcome)
    (tiles : List Tile) (maxResults geoCalls : ℕ) :
    GridLoopPost att tiles maxResults
      (runGridLoop att tiles maxResults geoCalls) ∧
    (runGridLoop overshootAtt fourTiles 2 0).allResults.length = 4 := by
  constructor
  · unfold runGridLoop
    have h0 : (0 : ℕ) = 4 * 0 := rfl
    rw [h0]
    apply gridLoopGo_post att tiles maxResults (tiles.length + 1) 0
    · omega
    · simp
    · simp [mergedPrefix]
    · intro n hn hnb _
      omega
  · rfl

theorem claim8_witness :
    GridLoopPost overshootAtt fourTiles 2
      (runGridLoop overshootAtt fourTiles 2 0) ∧
    (runGridLoop overshootAtt fourTiles 2 0).allResults.length = 4 :=
  claim8_early_termination overshootAtt fourTiles 2 0

theorem performStandardSearch_length_le (pages : ℕ → SearchResp)
    (maxResults : ℕ) (l : List PlaceResult)
    (h : performStandardSearch pages maxResults = .ok l) :
    l.length ≤ maxResults := by
  unfold performStandardSearch at h
  cases heq : stdGo pages maxResults (maxResults + 1) 0 [] with
  | error e => rw [heq] at h; exact absurd h (by simp [Except.map])
  | ok v =>
    obtain ⟨lst, pc⟩ := v
    rw [heq] at h
    simp only [Except.map, Except.ok.injEq] at h
    subst h
    exact stdGo_length_le pages maxResults (maxResults + 1) 0 [] (by simp) lst pc heq

theorem serveSearchPhase_ok_length (env : ServeEnv) (baseLocation : String)
    (maxResults : ℕ) (searchIntensity : String) (l : List PlaceResult)
    (calls : ℕ) (meta : GridMeta)
    (h : (serveSearchPhase env baseLocation maxResults searchIntensity).1 =
      .ok (l, calls, meta)) :
    l.length ≤ maxResults := by
  unfold serveSearchPhase at h
  split at h
  · cases hs : performStandardSearch env.pages maxResults with
    | error e => rw [hs] at h; exact absurd h (by simp)
    | ok l0 =>
      rw [hs] at h
      simp only [Except.ok.injEq, Prod.mk.injEq] at h
      rw [← h.1]
      exact performStandardSearch_length_le env.pages maxResults l0 hs
  · cases hg : performGridSearch env.toGridEnv baseLocation maxResults
        searchIntensity with
    | error e => rw [hg] at h; exact absurd h (by simp)
    | ok r =>
      rw [hg] at h
      simp only [Except.ok.injEq, Prod.mk.injEq] at h
      rw [← h.1]
      -- the grid return's results are the sliced list
      unfold performGridSearch at hg
      cases hgeo : (tryGeocode env.toGridEnv.geo
          (geocodingAttempts baseLocation)).1 with
      | error m =>
        simp only [hgeo] at hg
        cases hstd : performStandardSearch env.toGridEnv.pages maxResults with
        | error e2 => rw [hstd] at hg; exact absurd hg (by simp)
        | ok l2 =>
          rw [hstd] at hg
          simp only [Except.ok.injEq] at hg
          rw [← hg]
          exact performStandardSearch_length_le _ _ _ hstd
      | ok o =>
        cases o with
        | none =>
          simp only [hgeo] at hg
          cases hstd : performStandardSearch env.toGridEnv.pages maxResults with
          | error e2 => rw [hstd] at hg; exact absurd hg (by simp)
          | ok l2 =>
            rw [hstd] at hg
            simp only [Except.ok.injEq] at hg
            rw [← hg]
            exact performStandardSearch_length_le _ _ _ hstd
        | some gr =>
          simp only [hgeo] at hg
          simp only [Except.ok.injEq] at hg
          rw [← hg]
          simp [List.length_take]

/-- C1 — the coordinator never returns more than `maxResults` entries:
the grid search truncates after merging (and both its fallback paths run
the budgeted standard search), the budgeted standard search stops and
slices at the budget, and consequently the final response list is also
bounded. -/
theorem claim1_budget_respected (maxResults : ℕ) :
    (∀ (env : GridEnv) (baseLocation searchIntensity : String) r,
      performGridSearch env baseLocation maxResults searchIntensity = .ok r →
      r.results.length ≤ maxResults) ∧
    (∀ (pages : ℕ → SearchResp) l,
      performStandardSearch pages maxResults = .ok l →
      l.length ≤ maxResults) ∧
    (∀ (env : ServeEnv) (baseLocation searchIntensity : String),
      (serveHandler env baseLocation maxResults searchIntensity).results.length ≤
        maxResults) := by
  refine ⟨?_, ?_, ?_⟩
  · intro env baseLocation searchIntensity r hr
    unfold performGridSearch at hr
    cases hgeo : (tryGeocode env.geo (geocodingAttempts baseLocation)).1 with
    | error m =>
      simp only [hgeo] at hr
      cases hstd : performStandardSearch env.pages maxResults with
      | error e => rw [hstd] at hr; exact absurd hr (by simp)
      | ok l =>
        rw [hstd] at hr
        simp only [Except.ok.injEq] at hr
        rw [← hr]
        exact performStandardSearch_length_le _ _ _ hstd
    | ok o =>
      cases o with
      | none =>
        simp only [hgeo] at hr
        cases hstd : performStandardSearch env.pages maxResults with
        | error e => rw [hstd] at hr; exact absurd hr (by simp)
        | ok l =>
          rw [hstd] at hr
          simp only [Except.ok.injEq] at hr
          rw [← hr]
          exact performStandardSearch_length_le _ _ _ hstd
      | some gr =>
        simp only [hgeo] at hr
        simp only [Except.ok.injEq] at hr
        rw [← hr]
        simp [List.length_take]
  · intro pages l h
    exact performStandardSearch_length_le pages maxResults l h
  · intro env baseLocation searchIntensity
    unfold serveHandler
    cases hp : (serveSearchPhase env baseLocation maxResults searchIntensity).1 with
    | error e => simp
    | ok v =>
      obtain ⟨l, calls, meta⟩ := v
      have hl := serveSearchPhase_ok_length env baseLocation maxResults
        searchIntensity l calls meta hp
      by_cases hz : l.length = 0
      · simp [hz]
      · simp only [if_neg hz, List.length_map]
        exact hl

theorem claim1_witness :
    performGridSearch sampleGridEnv "loc" 100 "low" =
      .ok ⟨[samplePlace "a", samplePlace "b", samplePlace "c"], 3,
        noTilesMeta [samplePlace "a", samplePlace "b", samplePlace "c"], 2⟩ ∧
    (⟨[samplePlace "a", samplePlace "b", samplePlace "c"], 3,
        noTilesMeta [samplePlace "a", samplePlace "b", samplePlace "c"],
        2⟩ : GridReturn).results.length ≤ 100 ∧
    performStandardSearch samplePages 100 =
      .ok [samplePlace "a", samplePlace "b", samplePlace "c"] ∧
    ([samplePlace "a", samplePlace "b", samplePlace "c"] :
        List PlaceResult).length ≤ 100 ∧
    (serveHandler sampleServeEnvThrow "loc" 100 "low").results.length ≤ 100 :=
  ⟨rfl, (claim1_budget_respected 100).1 sampleGridEnv "loc" "low" _ rfl, rfl,
   (claim1_budget_respected 100).2.1 samplePages _ rfl,
   (claim1_budget_respected 100).2.2 sampleServeEnvThrow "loc" "low"⟩

/-- C4 (amended) — when every geocoding phrasing fails by status, the
grid coordinator returns the standard search of the original query
(identical output) as a plain success, but this in-try fallback writes
no `error` field into the meta (`meta.error = none`); `meta.error` is
non-empty only on the catch-path fallback reached when a geocoding
fetch throws.  Neither geocoding failure is propagated as a hard
failure. -/
theorem claim4_geocode_fallback (env : GridEnv) (baseLocation : String)
    (maxResults : ℕ) (searchIntensity : String) (l : List PlaceResult)
    (n : ℕ) :
    (tryGeocode env.geo (geocodingAttempts baseLocation) = (.ok none, n) →
      performStandardSearch env.pages maxResults = .ok l →
      performGridSearch env baseLocation maxResults searchIntensity =
        .ok ⟨l, n + ceilDiv20 l.length, noTilesMeta l, n⟩ ∧
      (noTilesMeta l).error = none) ∧
    (∀ m, tryGeocode env.geo (geocodingAttempts baseLocation) = (.error m, n) →
      performStandardSearch env.pages maxResults = .ok l →
      performGridSearch env baseLocation maxResults searchIntensity =
        .ok ⟨l, n + ceilDiv20 l.length, catchMeta l m, n⟩ ∧
      (catchMeta l m).error = some m) := by
  constructor
  · intro hg hs
    refine ⟨?_, rfl⟩
    unfold performGridSearch
    rw [hg]
    simp only [hs]
  · intro m hg hs
    refine ⟨?_, rfl⟩
    unfold performGridSearch
    rw [hg]
    simp only [hs]

theorem claim4_witness :
    (performGridSearch sampleGridEnv "loc" 100 "low" =
      .ok ⟨[samplePlace "a", samplePlace "b", samplePlace "c"], 3,
        noTilesMeta [samplePlace "a", samplePlace "b", samplePlace "c"], 2⟩ ∧
     (noTilesMeta [samplePlace "a", samplePlace "b", samplePlace "c"]).error =
       none) ∧
    (performGridSearch sampleGeoThrowEnv "loc" 100 "low" =
      .ok ⟨[samplePlace "a", samplePlace "b", samplePlace "c"], 1,
        catchMeta [samplePlace "a", samplePlace "b", samplePlace "c"] "boom",
        0⟩ ∧
     (catchMeta [samplePlace "a", samplePlace "b", samplePlace "c"]
        "boom").error = some "boom") :=
  ⟨(claim4_geocode_fallback sampleGridEnv "loc" 100 "low"
      [samplePlace "a", samplePlace "b", samplePlace "c"] 2).1 rfl rfl,
   (claim4_geocode_fallback sampleGeoThrowEnv "loc" 100 "low"
      [samplePlace "a", samplePlace "b", samplePlace "c"] 0).2 "boom" rfl rfl⟩

/-- C4 counterexample — with both geocoding phrasings failing by status
and the fallback standard search succeeding, the grid search returns
the fallback result whose meta has `error = none`: the claim's
"`meta.error` is non-empty" is false on this path. -/
theorem claim4_counterexample :
    performGridSearch sampleGridEnv "loc" 100 "low" =
      .ok ⟨[samplePlace "a", samplePlace "b", samplePlace "c"], 3,
        noTilesMeta [samplePlace "a", samplePlace "b", samplePlace "c"], 2⟩ ∧
    (performGridSearch sampleGridEnv "loc" 100 "low").map
        (fun r => r.meta.error) = .ok none :=
  ⟨rfl, rfl⟩

/-- C9 (amended) — the three recognized intensities map to base grid
sizes 2, 3, 4.  Any other intensity string that is not the name of an
`Object.prototype` member falls back to 2 and behaves exactly like
`"low"`.  For an inherited member name (`"constructor"`, `"toString"`,
...) the object-literal lookup returns a truthy non-number, the `|| 2`
default is skipped, and the tile loops create zero tiles; in every case
the grid search introduces no failure beyond what its fallback standard
search would raise. -/
theorem claim9_intensity_default (searchIntensity : String)
    (h1 : searchIntensity ≠ "low") (h2 : searchIntensity ≠ "medium")
    (h3 : searchIntensity ≠ "high")
    (h4 : ¬ searchIntensity ∈ objectPrototypeMembers) :
    (baseGridSize "low" = .num 2 ∧ baseGridSize "medium" = .num 3 ∧
     baseGridSize "high" = .num 4) ∧
    baseGridSize searchIntensity = .num 2 ∧
    (∀ (env : GridEnv) (baseLocation : String) (maxResults : ℕ),
      performGridSearch env baseLocation maxResults searchIntensity =
        performGridSearch env baseLocation maxResults "low") ∧
    (∀ s, s ∈ objectPrototypeMembers → baseGridSize s = .nonNum ∧
      ∀ (sw ne : GeoLoc) (maxSpan : ℚ),
        makeTilesJs sw ne (scaledGridSizeJs (baseGridSize s) maxSpan) = []) ∧
    (∀ (env : GridEnv) (baseLocation : String) (maxResults : ℕ)
        (si e : String),
      performGridSearch env baseLocation maxResults si = .error e →
      performStandardSearch env.pages maxResults = .error e) := by
  have hbase : baseGridSize searchIntensity = .num 2 := by
    simp [baseGridSize, gridSizes, h1, h2, h3, h4]
  refine ⟨⟨rfl, rfl, rfl⟩, hbase, ?_, ?_, ?_⟩
  · intro env baseLocation maxResults
    unfold performGridSearch
    rw [hbase]
    rfl
  · intro s hs
    simp only [objectPrototypeMembers, List.mem_cons,
      List.not_mem_nil, or_false] at hs
    rcases hs with rfl | rfl | rfl | rfl | rfl | rfl | rfl | rfl | rfl |
      rfl | rfl | rfl <;>
      exact ⟨rfl, fun _ _ _ => rfl⟩
  · intro env baseLocation maxResults si e h
    unfold performGridSearch at h
    cases hgeo : (tryGeocode env.geo (geocodingAttempts baseLocation)).1 with
    | error m =>
      simp only [hgeo] at h
      cases hstd : performStandardSearch env.pages maxResults with
      | error e2 =>
        rw [hstd] at h
        simp only [Except.error.injEq] at h
        rw [← h]
      | ok l => rw [hstd] at h; exact absurd h (by simp)
    | ok o =>
      cases o with
      | none =>
        simp only [hgeo] at h
        cases hstd : performStandardSearch env.pages maxResults with
        | error e2 =>
          rw [hstd] at h
          simp only [Except.error.injEq] at h
          rw [← h]
        | ok l => rw [hstd] at h; exact absurd h (by simp)
      | some gr =>
        simp only [hgeo] at h
        exact absurd h (by simp)

theorem claim9_witness :
    baseGridSize "extreme" = .num 2 ∧
    performGridSearch sampleGridEnvOk "loc" 100 "extreme" =
      performGridSearch sampleGridEnvOk "loc" 100 "low" ∧
    baseGridSize "toString" = JsGridSize.nonNum :=
  ⟨(claim9_intensity_default "extreme" (by decide) (by decide) (by decide)
      (by decide)).2.1,
   (claim9_intensity_default "extreme" (by decide) (by decide) (by decide)
      (by decide)).2.2.1 sampleGridEnvOk "loc" 100,
   ((claim9_intensity_default "extreme" (by decide) (by decide) (by decide)
      (by decide)).2.2.2.1 "toString" (by decide)).1⟩

theorem makeTilesJs_num2_ge (sw ne : GeoLoc) (m : ℚ) :
    4 ≤ (makeTilesJs sw ne (scaledGridSizeJs (JsGridSize.num 2) m)).length := by
  show 4 ≤ (makeTiles sw ne (scaledGridSize 2 m)).length
  rw [makeTiles_length]
  unfold scaledGridSize
  split
  · norm_num
  · norm_num

theorem performGridSearch_some_shape (env : GridEnv) (bl : String)
    (mr : ℕ) (si : String) (gr : GeoResult)
    (hg : (tryGeocode env.geo (geocodingAttempts bl)).1 = .ok (some gr)) :
    ∃ r, performGridSearch env bl mr si = .ok r ∧
      r.meta.tilesCreated =
        (makeTilesJs (boundsOf gr).1 (boundsOf gr).2
          (scaledGridSizeJs (baseGridSize si)
            (mathMax ((boundsOf gr).2.lat - (boundsOf gr).1.lat)
              ((boundsOf gr).2.lng - (boundsOf gr).1.lng)))).length := by
  simp only [performGridSearch]
  rw [hg]
  exact ⟨_, rfl, rfl⟩

/-- C9 counterexample — `searchIntensity = "constructor"` is not one of
the three recognized values, yet the grid search does not use base
density 2: the object-literal lookup finds the inherited member, which
is truthy, so the `|| 2` default is skipped and zero tiles are created,
whereas the same request with `"low"` creates at least 4 tiles — the
two runs differ. -/
theorem claim9_counterexample :
    baseGridSize "constructor" = JsGridSize.nonNum ∧
    performGridSearch sampleGridEnvOk "loc" 100 "constructor" =
      .ok ⟨[], 1, ⟨0, some 0, some 1, 0, 0, [], none⟩, 1⟩ ∧
    performGridSearch sampleGridEnvOk "loc" 100 "constructor" ≠
      performGridSearch sampleGridEnvOk "loc" 100 "low" := by
  refine ⟨rfl, rfl, ?_⟩
  obtain ⟨r, hr, htc⟩ := performGridSearch_some_shape sampleGridEnvOk "loc"
    100 "low" ⟨⟨0, 0⟩, some ⟨⟨0, 0⟩, ⟨1, 1⟩⟩⟩ rfl
  have hg4 : 4 ≤ r.meta.tilesCreated := by
    rw [htc]
    have hb : baseGridSize "low" = JsGridSize.num 2 := rfl
    rw [hb]
    exact makeTilesJs_num2_ge _ _ _
  intro h
  have hc : performGridSearch sampleGridEnvOk "loc" 100 "constructor" =
      .ok ⟨[], 1, ⟨0, some 0, some 1, 0, 0, [], none⟩, 1⟩ := rfl
  rw [hc, hr] at h
  simp only [Except.ok.injEq] at h
  rw [← h] at hg4
  norm_num at hg4

/-- C10 — when the chosen strategy yields an empty result list, `serve`
responds 200 with `results = []` and the accounting metadata, and issues
no details-endpoint call. -/
theorem claim10_empty_results (env : ServeEnv) (baseLocation : String)
    (maxResults : ℕ) (searchIntensity : String) (calls : ℕ) (meta : GridMeta)
    (h : (serveSearchPhase env baseLocation maxResults searchIntensity).1 =
      .ok ([], calls, meta)) :
    serveHandler env baseLocation maxResults searchIntensity =
      ⟨200, [], calls, some ⟨meta, none, none⟩, none, 0⟩ := by
  unfold serveHandler
  rw [h]
  rfl

theorem claim10_witness :
    serveHandler sampleServeEnvEmpty "loc" 30 "low" =
      ⟨200, [], 1, some ⟨noTilesMeta [], none, none⟩, none, 0⟩ :=
  claim10_empty_results sampleServeEnvEmpty "loc" 30 "low" 1 (noTilesMeta [])
    rfl

/-- C6 (amended) — on a non-OK detail response the output record keeps
every summary field (rating and review count defaulting to 0 when the
summary lacks them) with `reviews = []`; on a thrown detail fetch the
same holds except that the catch-branch object literal carries no
`website` and no `priceLevel`, so both are absent regardless of the
summary; and per-place detail failures never abort the request: the
response stays 200 with one output record per input place. -/
theorem claim6_detail_degradation (place : PlaceResult) :
    (enrichPlace .notOk place =
      ⟨place.place_id, place.name, place.formatted_address,
       place.formatted_phone_number, jsOrZeroQ place.rating,
       jsOrZeroNat place.user_ratings_total, place.business_status,
       place.website, place.price_level, []⟩) ∧
    (enrichPlace .threw place =
      ⟨place.place_id, place.name, place.formatted_address,
       place.formatted_phone_number, jsOrZeroQ place.rating,
       jsOrZeroNat place.user_ratings_total, place.business_status,
       none, none, []⟩) ∧
    (∀ (env : ServeEnv) (baseLocation : String) (maxResults : ℕ)
        (searchIntensity : String) l calls meta,
      (serveSearchPhase env baseLocation maxResults searchIntensity).1 =
        .ok (l, calls, meta) →
      (serveHandler env baseLocation maxResults searchIntensity).status = 200 ∧
      (serveHandler env baseLocation maxResults
        searchIntensity).results.length = l.length) := by
  refine ⟨rfl, rfl, ?_⟩
  intro env baseLocation maxResults searchIntensity l calls meta h
  unfold serveHandler
  rw [h]
  by_cases hz : l.length = 0
  · simp [hz]
  · simp [hz]

theorem claim6_witness :
    (enrichPlace .notOk samplePlaceFull =
      ⟨"p1", "Name", "Addr", some "123", 4, 10, some "OPERATIONAL",
       some "https://x.example", some 2, []⟩) ∧
    (enrichPlace .threw samplePlaceFull =
      ⟨"p1", "Name", "Addr", some "123", 4, 10, some "OPERATIONAL",
       none, none, []⟩) ∧
    ((serveHandler sampleServeEnvThrow "loc" 30 "low").status = 200 ∧
     (serveHandler sampleServeEnvThrow "loc" 30 "low").results.length = 3) :=
  ⟨(claim6_detail_degradation samplePlaceFull).1,
   (claim6_detail_degradation samplePlaceFull).2.1,
   (claim6_detail_degradation samplePlaceFull).2.2 sampleServeEnvThrow "loc"
     30 "low" [samplePlace "a", samplePlace "b", samplePlace "c"] 1
     (noTilesMeta [samplePlace "a", samplePlace "b", samplePlace "c"]) rfl⟩

/-- C6 counterexample — for a summary with a website and a price level,
a thrown detail fetch yields an output whose `website` and `priceLevel`
are absent, not equal to the summary's: the claim's "all other fields
(..., website, priceLevel) equal to the original PlaceSummary's" fails
on the thrown-fetch path. -/
theorem claim6_counterexample :
    (enrichPlace .threw samplePlaceFull).website = none ∧
    samplePlaceFull.website = some "https://x.example" ∧
    (enrichPlace .threw samplePlaceFull).website ≠ samplePlaceFull.website ∧
    (enrichPlace .threw samplePlaceFull).priceLevel = none ∧
    samplePlaceFull.price_level = some 2 ∧
    (enrichPlace .threw samplePlaceFull).reviews = [] := by
  refine ⟨rfl, rfl, ?_, rfl, rfl, rfl⟩
  decide

/-- C5 (amended) — for a budget of at most 60 the dispatcher runs a
single standard search with no geocoding call (the phase depends only on
the page oracle).  The two source variants then differ: the V0 variant
caps pagination at 3 pages and never truncates (its first big page is
returned whole, 61 > 60), while the current index.ts variant has no
3-page cap — it paginates until the budget is met — and truncates the
collected results to `maxResults`. -/
theorem claim5_standard_search_policy (env : ServeEnv)
    (baseLocation : String) (maxResults : ℕ) (searchIntensity : String)
    (h : maxResults ≤ 60) :
    ((serveSearchPhase env baseLocation maxResults searchIntensity).2 = 0) ∧
    (∀ env2 : ServeEnv, env2.pages = env.pages →
      serveSearchPhase env2 baseLocation maxResults searchIntensity =
        serveSearchPhase env baseLocation maxResults searchIntensity) ∧
    (∀ l calls meta,
      (serveSearchPhase env baseLocation maxResults searchIntensity).1 =
        .ok (l, calls, meta) →
      performStandardSearch env.pages maxResults = .ok l ∧
      l.length ≤ maxResults) ∧
    (∀ (pages : ℕ → SearchResp) l pc,
      performStandardSearchV0 pages = .ok (l, pc) → pc ≤ 3) ∧
    (performStandardSearchV0 bigPage =
      .ok ((List.range 61).map fun i => samplePlace (toString i), 1) ∧
     60 < ((List.range 61).map fun i => samplePlace (toString i)).length) := by
  refine ⟨?_, ?_, ?_, ?_, rfl, by simp⟩
  · simp only [serveSearchPhase, if_pos h]
    cases hs : performStandardSearch env.pages maxResults <;> simp [hs]
  · intro env2 hp
    simp only [serveSearchPhase, if_pos h, hp]
  · intro l calls meta hphase
    simp only [serveSearchPhase, if_pos h] at hphase
    cases hs : performStandardSearch env.pages maxResults with
    | error e => rw [hs] at hphase; exact absurd hphase (by simp)
    | ok l0 =>
      rw [hs] at hphase
      simp only [Except.ok.injEq, Prod.mk.injEq] at hphase
      rw [← hphase.1]
      exact ⟨rfl, performStandardSearch_length_le env.pages maxResults l0 hs⟩
  · intro pages l pc h5
    exact stdGoV0_pages_le pages 3 0 [] (by norm_num) l pc h5

theorem claim5_witness :
    ((serveSearchPhase sampleServeEnvThrow "loc" 30 "low").2 = 0) ∧
    (performStandardSearch sampleServeEnvThrow.pages 30 =
      .ok [samplePlace "a", samplePlace "b", samplePlace "c"] ∧
     ([samplePlace "a", samplePlace "b", samplePlace "c"] :
        List PlaceResult).length ≤ 30) :=
  ⟨(claim5_standard_search_policy sampleServeEnvThrow "loc" 30 "low"
      (by norm_num)).1,
   (claim5_standard_search_policy sampleServeEnvThrow "loc" 30 "low"
      (by norm_num)).2.2.1 [samplePlace "a", samplePlace "b", samplePlace "c"]
      1 (noTilesMeta [samplePlace "a", samplePlace "b", samplePlace "c"]) rfl⟩

/-- C5 counterexample — with budget 2 (≤ 60) the current standard search
returns 2 of the 3 places its one page collected (it does truncate to
`maxResults`), and with budget 5 over single-result pages it reads 5
pages (there is no 3-page cap): both halves of the claim fail on the
index.ts variant. -/
theorem claim5_counterexample :
    performStandardSearch samplePages 2 =
      .ok [samplePlace "a", samplePlace "b"] ∧
    (samplePages 0).results.length = 3 ∧
    stdGo pagesPerOne 5 6 0 [] =
      .ok ([samplePlace "0", samplePlace "1", samplePlace "2",
            samplePlace "3", samplePlace "4"], 5) ∧
    3 < 5 :=
  ⟨rfl, rfl, rfl, by norm_num⟩

theorem claim2_witness :
    ((⟨0, 0⟩ : GeoLoc).lat ≤ (⟨1, 1⟩ : GeoLoc).lat) ∧
    ((⟨0, 0⟩ : GeoLoc).lng ≤ (⟨1, 1⟩ : GeoLoc).lng) ∧
    (0 : ℕ) < 2 ∧ TilesPartition ⟨0, 0⟩ ⟨1, 1⟩ 2 :=
  ⟨by norm_num, by norm_num, by norm_num,
   claim2_tile_partition ⟨0, 0⟩ ⟨1, 1⟩ 2 (by norm_num) (by norm_num)
     (by norm_num)⟩
